import Mathlib

/-!
Verification development for the confined command-execution engine
(`backend/command_parser.py`, `backend/security.py`, `backend/command_executor.py`).

The Python sources are shallowly embedded: every stateful method becomes a
pure function on an explicit state value, machine ints become `Nat`/`Int`,
fallible code returns `Except`/`Option`, and host effects that the code
merely reports (psutil telemetry, `os.stat` metadata) are supplied by an
oracle record.  Strings keep Python semantics (`str.strip`, `str.split`,
`os.path.normpath`, `shlex.split`, `re.search`) via the helper functions
below, each of which names the Python function it embeds.
-/

namespace PyStr

/-- The whitespace characters recognised by Python's `str.strip()` /
`str.split()` and by the regex class `\s` (ASCII range). -/
def isSpace (c : Char) : Bool :=
  c = ' ' ∨ c = '\t' ∨ c = '\n' ∨ c = '\x0d' ∨ c = '\x0b' ∨ c = '\x0c'

/-- Python `str.strip()` (no argument): drop leading and trailing whitespace. -/
def strip (s : String) : String :=
  String.mk ((s.data.dropWhile isSpace).reverse.dropWhile isSpace |>.reverse)

/-- Python `str.lstrip('/')`: drop every leading `/`. -/
def lstripSlash (s : String) : String :=
  String.mk (s.data.dropWhile (· = '/'))

/-- Python `str.rstrip()`: drop trailing whitespace. -/
def rstrip (s : String) : String :=
  String.mk (s.data.reverse.dropWhile isSpace |>.reverse)

/-- Python `a.startswith(b)` — a plain string-prefix test. -/
def startswith (s pre : String) : Bool :=
  pre.data.isPrefixOf s.data

/-- Python `a.endswith(b)`. -/
def endswith (s suf : String) : Bool :=
  suf.data.isSuffixOf s.data

/-- Python `b in a` — substring containment. -/
def containsSub (s sub : String) : Bool :=
  (List.range (s.data.length + 1)).any fun i => sub.data.isPrefixOf (s.data.drop i)

/-- Python `str.lower()` (ASCII behaviour). -/
def lower (s : String) : String :=
  String.mk (s.data.map Char.toLower)

/-- Structural splitter on a character predicate: the fields between
separator occurrences, empty fields kept.  `splitOnPred (· = c) s.data`
equals Python `s.split(c)` (realised structurally so that terms reduce
inside the kernel). -/
def splitOnPred (p : Char → Bool) : List Char → List (List Char)
  | [] => [[]]
  | a :: rest =>
    match splitOnPred p rest with
    | [] => [[]]
    | h :: t => if p a then [] :: h :: t else (a :: h) :: t

/-- Python `s.split(c)` for a one-character separator. -/
def splitChar (s : String) (c : Char) : List String :=
  (splitOnPred (· = c) s.data).map String.mk

/-- Structural splitter for a two-character separator: Python
`s.split(c1c2)`, non-overlapping, left to right. -/
def splitOnPair (c1 c2 : Char) : List Char → List (List Char)
  | [] => [[]]
  | [a] => [[a]]
  | a :: b :: rest =>
    if a = c1 ∧ b = c2 then [] :: splitOnPair c1 c2 rest
    else
      match splitOnPair c1 c2 (b :: rest) with
      | [] => [[]]
      | h :: t => (a :: h) :: t

/-- Stable insertion after every element `b` with `le b a`. -/
def insLe {α : Type} (le : α → α → Bool) (a : α) : List α → List α
  | [] => [a]
  | b :: bs => if le b a then b :: insLe le a bs else a :: b :: bs

/-- Stable ascending sort — the semantics of Python `sorted` /
`list.sort` (stable; `reverse=True` is modelled by flipping `le`). -/
def pySortBy {α : Type} (le : α → α → Bool) (l : List α) : List α :=
  l.foldl (fun acc a => insLe le a acc) []

/-- Python `str.split()` with no argument: split on whitespace runs,
never producing empty fields. -/
def splitWs (s : String) : List String :=
  ((splitOnPred isSpace s.data).map String.mk).filter (· ≠ "")

/-- Python `int(s)` restricted to the forms the executor meets:
optional surrounding whitespace, optional sign, then decimal digits. -/
def toInt (s : String) : Option Int :=
  let t := (strip s).data
  let core : List Char → Option (Bool × List Char) :=
    fun l => match l with
      | '-' :: rest => some (true, rest)
      | '+' :: rest => some (false, rest)
      | rest => some (false, rest)
  match core t with
  | some (neg, digits) =>
    if digits ≠ [] ∧ digits.all Char.isDigit then
      let n := digits.foldl (fun acc c => acc * 10 + (c.toNat - '0'.toNat)) 0
      some (if neg then -(n : Int) else (n : Int))
    else none
  | none => none

/-- Python `str.isdigit()` (ASCII digits). -/
def isdigitStr (s : String) : Bool :=
  s.data ≠ [] ∧ s.data.all Char.isDigit

/-- Python `f'{x:>w}'` for a string: left-pad with spaces to width `w`. -/
def padLeft (s : String) (w : Nat) : String :=
  String.mk (List.replicate (w - s.data.length) ' ') ++ s

end PyStr

namespace Posix

/-- `posixpath.join(a, b)` for two components. -/
def join2 (a b : String) : String :=
  if PyStr.startswith b "/" then b
  else if a = "" ∨ PyStr.endswith a "/" then a ++ b
  else a ++ "/" ++ b

/-- `posixpath.normpath`: collapse `.`, empty components, and `..`
(with the CPython rules for relative paths and initial slashes). -/
def normpath (p : String) : String :=
  if p = "" then "." else
  let isAbs := PyStr.startswith p "/"
  let initialSlashes : Nat :=
    if isAbs then
      if PyStr.startswith p "//" ∧ ¬ PyStr.startswith p "///" then 2 else 1
    else 0
  let comps := (PyStr.splitChar p '/').filter (fun c => c ≠ "" ∧ c ≠ ".")
  let newComps := comps.foldl (fun acc comp =>
    if comp ≠ ".." ∨ (initialSlashes = 0 ∧ acc = []) ∨
        (acc ≠ [] ∧ acc.getLast? = some "..") then
      acc ++ [comp]
    else if acc ≠ [] then acc.dropLast
    else acc) []
  let body := String.intercalate "/" newComps
  let out := String.mk (List.replicate initialSlashes '/') ++ body
  if out = "" then "." else out

/-- `posixpath.dirname`: `p[:p.rfind('/') + 1]` — everything up to and
including the last slash (the maximal prefix ending in `/`, empty when
there is no slash) — then, unless empty or all slashes, trailing slashes
are stripped. -/
def dirname (p : String) : String :=
  let head := (p.data.reverse.dropWhile (· ≠ '/')).reverse
  if head ≠ [] ∧ ¬ head.all (· = '/') then
    String.mk (head.reverse.dropWhile (· = '/') |>.reverse)
  else String.mk head

/-- `posixpath.basename`: `p[p.rfind('/') + 1:]` — the maximal suffix
containing no slash. -/
def basename (p : String) : String :=
  String.mk ((p.data.reverse.takeWhile (· ≠ '/')).reverse)

/-- `posixpath.abspath(p)` relative to the process working directory
`procCwd`: `normpath(join(procCwd, p))`. -/
def abspath (procCwd p : String) : String :=
  normpath (join2 procCwd p)

/-- Component lists of `posixpath.relpath`'s operands: non-empty fields of
the absolute path. -/
def absComps (procCwd p : String) : List String :=
  (PyStr.splitChar (abspath procCwd p) '/').filter (· ≠ "")

/-- Length of the common prefix of two lists. -/
def commonPrefixLen : List String → List String → Nat
  | a :: as, b :: bs => if a = b then commonPrefixLen as bs + 1 else 0
  | _, _ => 0

/-- `posixpath.relpath(path, start)`. -/
def relpath (procCwd path start : String) : String :=
  let startList := absComps procCwd start
  let pathList := absComps procCwd path
  let i := commonPrefixLen startList pathList
  let relList := List.replicate (startList.length - i) ".." ++ pathList.drop i
  match relList with
  | [] => "."
  | x :: xs => xs.foldl join2 x

end Posix

/-! ### A small regex interpreter

`security.py` screens input with `re.search(pattern, input, re.IGNORECASE)`
over a fixed list of patterns built from literals, `\s`, `.`, `*`, `+`,
alternation, `^`, `$` and `\b`.  The AST below covers exactly those
constructs; each Python pattern is translated term-by-term further down.
`IGNORECASE` is realised by matching the lower-cased input (every literal
in the pattern list is already lower case). -/

namespace Rx

inductive Re where
  | eps : Re
  | chr (c : Char) : Re
  | cls (f : Char → Bool) : Re
  | str (s : String) : Re
  | seq (r1 r2 : Re) : Re
  | alt (r1 r2 : Re) : Re
  | star (r : Re) : Re
  | bos : Re
  | eol : Re
  | wb : Re

/-- Python `\w` (ASCII): letters, digits, underscore. -/
def isWordChar (c : Char) : Bool := c.isAlphanum ∨ c = '_'

/-- Iterate the matcher `m` of a starred regex zero or more times, each
iteration forced to consume at least one character (the standard
equivalent semantics of `r*`); any `fuel` larger than `s.length` is
exact. -/
def starIter (m : Option Char → List Char → List (Option Char × List Char)) :
    Nat → Option Char → List Char → List (Option Char × List Char)
  | 0, prev, s => [(prev, s)]
  | fuel + 1, prev, s =>
    (prev, s) :: (m prev s).flatMap (fun pr =>
      if pr.2.length < s.length then starIter m fuel pr.1 pr.2 else [])

/-- Nondeterministic matcher: all `(previous consumed char, remainder)`
states reachable by matching `re` at the head of `s`.  `prev` carries the
character preceding the current position (`none` at string start), needed
by `\b` and `^`. -/
def mtch : Re → Option Char → List Char → List (Option Char × List Char)
  | .eps, prev, s => [(prev, s)]
  | .chr c, _prev, s =>
    (match s with
     | [] => []
     | a :: rest => if a = c then [(some a, rest)] else [])
  | .cls f, _prev, s =>
    (match s with
     | [] => []
     | a :: rest => if f a then [(some a, rest)] else [])
  | .str t, prev, s =>
    if t.data.isPrefixOf s then
      [(match t.data.getLast? with | some c => some c | none => prev, s.drop t.data.length)]
    else []
  | .seq r1 r2, prev, s => (mtch r1 prev s).flatMap (fun pr => mtch r2 pr.1 pr.2)
  | .alt r1 r2, prev, s => mtch r1 prev s ++ mtch r2 prev s
  | .star r, prev, s => starIter (mtch r) (s.length + 1) prev s
  | .bos, prev, s => if prev = none then [(prev, s)] else []
  | .eol, prev, s => if s = [] ∨ s = ['\n'] then [(prev, s)] else []
  | .wb, prev, s =>
    let before := match prev with | some c => isWordChar c | none => false
    let after := match s with | c :: _ => isWordChar c | [] => false
    if before ≠ after then [(prev, s)] else []

/-- `re.search` at successive start positions. -/
def searchFrom (re : Re) : Option Char → List Char → Bool
  | prev, [] => !(mtch re prev []).isEmpty
  | prev, c :: rest =>
    !(mtch re prev (c :: rest)).isEmpty || searchFrom re (some c) rest

/-- Python `re.search(pattern, s) is not None`. -/
def search (re : Re) (s : String) : Bool :=
  searchFrom re none s.data

/-- Fold a nonempty list of regexes into a sequence. -/
def seqs : List Re → Re
  | [] => .eps
  | x :: xs => xs.foldl .seq x

/-- `\s+` -/
def wsP : Re := seqs [.cls PyStr.isSpace, .star (.cls PyStr.isSpace)]
/-- `\s*` -/
def wsS : Re := .star (.cls PyStr.isSpace)
/-- `.` (any char except newline) -/
def dot : Re := .cls (· ≠ '\n')
/-- `.*` -/
def dotS : Re := .star dot

end Rx

namespace Security

open Rx

/-- `SecurityManager.dangerous_patterns`, each paired with its Python
source text (used verbatim in the warning strings). -/
def dangerous_patterns : List (String × Re) := [
  ("sudo\\s+", seqs [.str "sudo", wsP]),
  ("su\\s+", seqs [.str "su", wsP]),
  ("passwd\\s+", seqs [.str "passwd", wsP]),
  ("useradd\\s+", seqs [.str "useradd", wsP]),
  ("userdel\\s+", seqs [.str "userdel", wsP]),
  ("usermod\\s+", seqs [.str "usermod", wsP]),
  ("groupadd\\s+", seqs [.str "groupadd", wsP]),
  ("groupdel\\s+", seqs [.str "groupdel", wsP]),
  ("rm\\s+-rf\\s+/", seqs [.str "rm", wsP, .str "-rf", wsP, .str "/"]),
  ("rm\\s+-rf\\s+\\*", seqs [.str "rm", wsP, .str "-rf", wsP, .str "*"]),
  ("rm\\s+-rf\\s+~", seqs [.str "rm", wsP, .str "-rf", wsP, .str "~"]),
  ("format\\s+", seqs [.str "format", wsP]),
  ("fdisk\\s+", seqs [.str "fdisk", wsP]),
  ("mkfs\\s+", seqs [.str "mkfs", wsP]),
  ("dd\\s+if=.*of=/dev/", seqs [.str "dd", wsP, .str "if=", dotS, .str "of=/dev/"]),
  ("ssh\\s+", seqs [.str "ssh", wsP]),
  ("scp\\s+", seqs [.str "scp", wsP]),
  ("rsync\\s+.*:", seqs [.str "rsync", wsP, dotS, .str ":"]),
  ("nc\\s+.*-e", seqs [.str "nc", wsP, dotS, .str "-e"]),
  ("netcat\\s+.*-e", seqs [.str "netcat", wsP, dotS, .str "-e"]),
  ("telnet\\s+", seqs [.str "telnet", wsP]),
  ("ftp\\s+", seqs [.str "ftp", wsP]),
  ("kill\\s+-9\\s+1", seqs [.str "kill", wsP, .str "-9", wsP, .str "1"]),
  ("killall\\s+-9", seqs [.str "killall", wsP, .str "-9"]),
  ("pkill\\s+", seqs [.str "pkill", wsP]),
  ("systemctl\\s+", seqs [.str "systemctl", wsP]),
  ("service\\s+", seqs [.str "service", wsP]),
  ("init\\s+", seqs [.str "init", wsP]),
  ("shutdown\\s+", seqs [.str "shutdown", wsP]),
  ("reboot\\s+", seqs [.str "reboot", wsP]),
  ("halt\\s+", seqs [.str "halt", wsP]),
  ("apt\\s+install\\s+", seqs [.str "apt", wsP, .str "install", wsP]),
  ("apt-get\\s+install\\s+", seqs [.str "apt-get", wsP, .str "install", wsP]),
  ("yum\\s+install\\s+", seqs [.str "yum", wsP, .str "install", wsP]),
  ("rpm\\s+-i", seqs [.str "rpm", wsP, .str "-i"]),
  ("dpkg\\s+-i", seqs [.str "dpkg", wsP, .str "-i"]),
  ("python\\s+-c\\s+", seqs [.str "python", wsP, .str "-c", wsP]),
  ("perl\\s+-e\\s+", seqs [.str "perl", wsP, .str "-e", wsP]),
  ("ruby\\s+-e\\s+", seqs [.str "ruby", wsP, .str "-e", wsP]),
  ("node\\s+-e\\s+", seqs [.str "node", wsP, .str "-e", wsP]),
  ("eval\\s+", seqs [.str "eval", wsP]),
  ("exec\\s+", seqs [.str "exec", wsP]),
  (">\\s*/dev/null", seqs [.str ">", wsS, .str "/dev/null"]),
  (">\\s*/dev/zero", seqs [.str ">", wsS, .str "/dev/zero"]),
  (">\\s*/proc/", seqs [.str ">", wsS, .str "/proc/"]),
  (">\\s*/sys/", seqs [.str ">", wsS, .str "/sys/"]),
  ("\\|\\s*sh\\s*$", seqs [.str "|", wsS, .str "sh", wsS, .eol]),
  ("\\|\\s*bash\\s*$", seqs [.str "|", wsS, .str "bash", wsS, .eol]),
  ("\\|\\s*zsh\\s*$", seqs [.str "|", wsS, .str "zsh", wsS, .eol]),
  ("`.*`", seqs [.str "`", dotS, .str "`"]),
  ("\\$\\(", .str "$("),
  ("\\$\\\x7b", .str "$\x7b"),
  ("export\\s+PATH=", seqs [.str "export", wsP, .str "path="]),
  ("export\\s+LD_PRELOAD=", seqs [.str "export", wsP, .str "ld_preload="]),
  ("export\\s+LD_LIBRARY_PATH=", seqs [.str "export", wsP, .str "ld_library_path="]),
  ("crontab\\s+", seqs [.str "crontab", wsP]),
  ("\\bat\\s+", seqs [.wb, .str "at", wsP]),
  ("batch\\s+", seqs [.str "batch", wsP]),
  ("mysql\\s+.*-e", seqs [.str "mysql", wsP, dotS, .str "-e"]),
  ("psql\\s+.*-c", seqs [.str "psql", wsP, dotS, .str "-c"]),
  ("zip\\s+.*-r.*/", seqs [.str "zip", wsP, dotS, .str "-r", dotS, .str "/"]),
  ("tar\\s+.*--exclude=", seqs [.str "tar", wsP, dotS, .str "--exclude="])]

/-- `SecurityManager.path_traversal_patterns`. -/
def path_traversal_patterns : List (String × Re) := [
  ("\\.\\./+", seqs [.str "..", .chr '/', .star (.chr '/')]),
  ("/\\.\\./+", seqs [.str "/..", .chr '/', .star (.chr '/')]),
  ("\\\\\\.\\.\\\\+", seqs [.str "\\..", .chr '\\', .star (.chr '\\')]),
  ("%2e%2e%2f", .str "%2e%2e%2f"),
  ("%2e%2e/", .str "%2e%2e/"),
  ("..%2f", seqs [dot, dot, .str "%2f"]),
  ("%2e%2e%5c", .str "%2e%2e%5c")]

/-- The injection pattern list local to `_check_injection_attempts`. -/
def injection_patterns : List (String × Re) := [
  (";.*rm\\s+", seqs [.str ";", dotS, .str "rm", wsP]),
  ("&&.*rm\\s+", seqs [.str "&&", dotS, .str "rm", wsP]),
  ("\\|\\|.*rm\\s+", seqs [.str "||", dotS, .str "rm", wsP]),
  (";.*wget\\s+", seqs [.str ";", dotS, .str "wget", wsP]),
  ("&&.*wget\\s+", seqs [.str "&&", dotS, .str "wget", wsP]),
  (";.*curl\\s+", seqs [.str ";", dotS, .str "curl", wsP]),
  ("&&.*curl\\s+", seqs [.str "&&", dotS, .str "curl", wsP]),
  (";.*python\\s+", seqs [.str ";", dotS, .str "python", wsP]),
  ("&&.*python\\s+", seqs [.str "&&", dotS, .str "python", wsP]),
  (";.*sh\\s+", seqs [.str ";", dotS, .str "sh", wsP]),
  ("&&.*sh\\s+", seqs [.str "&&", dotS, .str "sh", wsP]),
  (";.*bash\\s+", seqs [.str ";", dotS, .str "bash", wsP]),
  ("&&.*bash\\s+", seqs [.str "&&", dotS, .str "bash", wsP])]

/-- `re.search(p, input, re.IGNORECASE)` for the all-lower-case patterns
above: search the lower-cased input. -/
def searchI (re : Re) (input : String) : Bool :=
  Rx.search re (PyStr.lower input)

/-- `SecurityManager._check_dangerous_patterns`. -/
def check_dangerous_patterns (input : String) : List String :=
  dangerous_patterns.filterMap fun p =>
    if searchI p.2 input then some ("Dangerous pattern: " ++ p.1) else none

/-- `SecurityManager._check_path_traversal`. -/
def check_path_traversal (input : String) : List String :=
  path_traversal_patterns.filterMap fun p =>
    if searchI p.2 input then some ("Path traversal pattern: " ++ p.1) else none

/-- `SecurityManager._check_injection_attempts`. -/
def check_injection_attempts (input : String) : List String :=
  injection_patterns.filterMap fun p =>
    if searchI p.2 input then some ("Injection pattern: " ++ p.1) else none

/-- Character ranges used by the ANSI-escape regex in `_sanitize_input`,
whose source is ESC, then either one char of the class `@` to `Z`, `\` to
`_`, or `[`, a run of `0` to `?`, a run of space to `\x2f`, one final
char of `@` to `~`. -/
def inRange (lo hi c : Char) : Bool :=
  lo.toNat ≤ c.toNat ∧ c.toNat ≤ hi.toNat

/-- Length of the ANSI-escape match at the head of `s`, if any.  The three
character classes of the CSI alternative are pairwise disjoint, so the
greedy stars never backtrack and a linear scan is exact. -/
def ansiMatchLen (s : List Char) : Option Nat :=
  match s with
  | '\x1b' :: c :: rest =>
    if inRange '@' 'Z' c ∨ inRange '\x5c' '_' c then some 2
    else if c = '[' then
      let ps := rest.takeWhile (inRange '0' '?')
      let rest2 := rest.drop ps.length
      let is := rest2.takeWhile (inRange ' ' '/')
      let rest3 := rest2.drop is.length
      match rest3 with
      | f :: _ => if inRange '@' '~' f then some (2 + ps.length + is.length + 1) else none
      | [] => none
    else none
  | _ => none

/-- The scanning loop of `ansi_escape.sub('', s)`: delete every
non-overlapping leftmost match.  Each step consumes at least one
character, so any `fuel` larger than the input length is exact. -/
def ansiSubF : Nat → List Char → List Char
  | 0, l => l
  | _ + 1, [] => []
  | fuel + 1, c :: rest =>
    match ansiMatchLen (c :: rest) with
    | some n => ansiSubF fuel (rest.drop (n - 1))
    | none => c :: ansiSubF fuel rest

/-- `ansi_escape.sub('', s)`. -/
def ansiSub (l : List Char) : List Char :=
  ansiSubF (l.length + 1) l

/-- Python `str.isprintable()` restricted to the character sets the
claims exercise: true for ASCII `0x20..0x7E`, false for ASCII control
characters, DEL and the C1 block (Unicode categories beyond that are out
of scope for this development). -/
def isPrintable (c : Char) : Bool :=
  0x20 ≤ c.toNat ∧ c.toNat ≠ 0x7f ∧ ¬ (0x80 ≤ c.toNat ∧ c.toNat ≤ 0xa0)

/-- `SecurityManager._sanitize_input`: strip surrounding whitespace, drop
NUL bytes, delete ANSI escape sequences, keep only printable characters
plus tab and newline. -/
def sanitize_input (user_input : String) : String :=
  let t1 := PyStr.strip user_input
  let t2 := t1.data.filter (· ≠ '\x00')
  let t3 := ansiSub t2
  String.mk (t3.filter fun c => isPrintable c ∨ c = '\t' ∨ c = '\n')

def max_requests_per_minute : Nat := 60
def max_requests_per_hour : Nat := 500
def max_command_length : Nat := 1000

/-- Association-list lookup keyed by strings (Python dict lookup). -/
def alookup {α : Type} (l : List (String × α)) (k : String) : Option α :=
  (l.find? (fun p => p.1 = k)).map (·.2)

/-- Association-list update (Python `d[k] = v`): replace the entry at
`k`, appending a new one when absent. -/
def aset {α : Type} : List (String × α) → String → α → List (String × α)
  | [], k, v => [(k, v)]
  | p :: rest, k, v => if p.1 = k then (k, v) :: rest else p :: aset rest k v

/-- One recorded suspicious activity: `(type, details[:200])`.  The
`datetime` fields of the Python record are kept as the integer clock
passed to the caller. -/
structure SuspicionEntry where
  count : Nat
  activities : List (String × String)
  firstSeen : Int
  lastSeen : Int
deriving Repr, DecidableEq

/-- The mutable state of `SecurityManager`: rate-limit timestamp lists,
the blocked-IP set (as a duplicate-free list) and the suspicion map.
`time.time()` / `datetime.now()` values are modelled as integer seconds
supplied by the caller. -/
structure SecState where
  rate_limit_storage : List (String × List Int)
  blocked_ips : List String
  suspicious_activity : List (String × SuspicionEntry)
deriving Repr, DecidableEq

/-- The freshly constructed `SecurityManager()`. -/
def initSec : SecState := { rate_limit_storage := [], blocked_ips := [], suspicious_activity := [] }

structure RateCheck where
  allowed : Bool
  message : String
deriving Repr, DecidableEq

/-- `SecurityManager._check_rate_limit`: prune the IP's timestamps to the
trailing hour, reject on the hourly then the per-minute cap, otherwise
record the new timestamp.  The `remaining_*` fields of the allowed result
are never read by the caller and are not modelled. -/
def check_rate_limit (storage : List (String × List Int)) (client_ip : String) (now : Int) :
    RateCheck × List (String × List Int) :=
  let ts := (alookup storage client_ip).getD []
  let pruned := ts.filter (fun t => t > now - 3600)
  if pruned.length ≥ max_requests_per_hour then
    ({ allowed := false, message := "Hourly limit of 500 requests exceeded" },
      aset storage client_ip pruned)
  else
    let recent := pruned.filter (fun t => t > now - 60)
    if recent.length ≥ max_requests_per_minute then
      ({ allowed := false, message := "Per-minute limit of 60 requests exceeded" },
        aset storage client_ip pruned)
    else
      ({ allowed := true, message := "" }, aset storage client_ip (pruned ++ [now]))

/-- `SecurityManager._track_suspicious_activity`: bump the IP's counter,
append the activity (details truncated to 200 characters), and add the IP
to `blocked_ips` once the counter reaches 5. -/
def track_suspicious_activity (st : SecState) (client_ip activity_type details : String)
    (now : Int) : SecState :=
  let entry := (alookup st.suspicious_activity client_ip).getD
    { count := 0, activities := [], firstSeen := now, lastSeen := now }
  let entry' : SuspicionEntry :=
    { count := entry.count + 1
      activities := entry.activities ++ [(activity_type, String.mk (details.data.take 200))]
      firstSeen := entry.firstSeen
      lastSeen := now }
  let st' := { st with suspicious_activity := aset st.suspicious_activity client_ip entry' }
  if entry'.count ≥ 5 then
    { st' with blocked_ips :=
        if st'.blocked_ips.contains client_ip then st'.blocked_ips
        else st'.blocked_ips ++ [client_ip] }
  else st'

/-- The dict returned by `validate_input`; `sanitized_input` is `none`
when the Python dict lacks the key. -/
structure VResult where
  valid : Bool
  blocked : Bool
  warnings : List String
  errors : List String
  sanitized_input : Option String
deriving Repr, DecidableEq

/-- Truthiness of the optional `client_ip` argument (`if client_ip:`). -/
def ipPresent : Option String → Bool
  | none => false
  | some s => s ≠ ""

/-- `SecurityManager.validate_input`.  Mirrors the source exactly: the
IP-block, rate-limit and length checks return early; the dangerous,
path-traversal and injection screens each run unconditionally, each
appending one error and (when an IP is given) one suspicion increment;
sanitization happens only after all three screens. -/
def validate_input (st : SecState) (user_input : String) (client_ip : Option String)
    (now : Int) : VResult × SecState :=
  let present := ipPresent client_ip
  let ip := client_ip.getD ""
  if present ∧ st.blocked_ips.contains ip then
    ({ valid := false, blocked := true, warnings := [],
       errors := ["IP address is blocked"], sanitized_input := none }, st)
  else
    let rlPair :=
      if present then check_rate_limit st.rate_limit_storage ip now
      else ({ allowed := true, message := "" }, st.rate_limit_storage)
    let st1 := { st with rate_limit_storage := rlPair.2 }
    if present ∧ rlPair.1.allowed = false then
      ({ valid := false, blocked := false, warnings := [],
         errors := ["Rate limit exceeded: " ++ rlPair.1.message], sanitized_input := none }, st1)
    else if user_input.length > max_command_length then
      ({ valid := false, blocked := false, warnings := [],
         errors := ["Input too long (max 1000 characters)"], sanitized_input := none }, st1)
    else
      let dangerous := check_dangerous_patterns user_input
      let st2 := if dangerous ≠ [] ∧ present then
          track_suspicious_activity st1 ip "dangerous_command" user_input now else st1
      let traversal := check_path_traversal user_input
      let st3 := if traversal ≠ [] ∧ present then
          track_suspicious_activity st2 ip "path_traversal" user_input now else st2
      let injection := check_injection_attempts user_input
      let st4 := if injection ≠ [] ∧ present then
          track_suspicious_activity st3 ip "injection_attempt" user_input now else st3
      ({ valid := dangerous = [] ∧ traversal = [] ∧ injection = []
         blocked := false
         warnings := dangerous ++ traversal ++ injection
         errors :=
           (if dangerous ≠ [] then ["Potentially dangerous command detected"] else []) ++
           (if traversal ≠ [] then ["Path traversal attempt detected"] else []) ++
           (if injection ≠ [] then ["Code injection attempt detected"] else [])
         sanitized_input := some (sanitize_input user_input) }, st4)

end Security

namespace CmdParse

/-- Tokenizer modes of `shlex` (POSIX mode, `whitespace_split=True`):
outside quotes, inside single quotes, inside double quotes. -/
inductive SMode where
  | norm : SMode
  | single : SMode
  | double : SMode
deriving DecidableEq

/-- The `shlex.split` scanner.  `cur = some t` means a token `t` is open
(so `''` yields an empty token).  Backslash escapes the next character
outside quotes; inside double quotes it escapes only `"` and `\`,
otherwise the backslash is kept.  EOF inside a quote raises
`No closing quotation`; EOF right after a backslash raises
`No escaped character` — the `str(e)` texts the parser stores. -/
def shlexGo : List Char → SMode → Option (List Char) → List String →
    Except String (List String)
  | [], .norm, cur, acc =>
    match cur with
    | some t => .ok (acc ++ [String.mk t])
    | none => .ok acc
  | [], .single, _, _ => .error "No closing quotation"
  | [], .double, _, _ => .error "No closing quotation"
  | c :: r, .norm, cur, acc =>
    if PyStr.isSpace c then
      match cur with
      | some t => shlexGo r .norm none (acc ++ [String.mk t])
      | none => shlexGo r .norm none acc
    else if c = '\'' then shlexGo r .single (some (cur.getD [])) acc
    else if c = '"' then shlexGo r .double (some (cur.getD [])) acc
    else if c = '\\' then
      match r with
      | [] => .error "No escaped character"
      | d :: r' => shlexGo r' .norm (some (cur.getD [] ++ [d])) acc
    else shlexGo r .norm (some (cur.getD [] ++ [c])) acc
  | c :: r, .single, cur, acc =>
    if c = '\'' then shlexGo r .norm cur acc
    else shlexGo r .single (some (cur.getD [] ++ [c])) acc
  | c :: r, .double, cur, acc =>
    if c = '"' then shlexGo r .norm cur acc
    else if c = '\\' then
      match r with
      | [] => .error "No escaped character"
      | d :: r' =>
        if d = '"' ∨ d = '\\' then shlexGo r' .double (some (cur.getD [] ++ [d])) acc
        else shlexGo r' .double (some (cur.getD [] ++ ['\\', d])) acc
    else shlexGo r .double (some (cur.getD [] ++ [c])) acc

/-- `shlex.split(s)` (POSIX rules), or the `ValueError` message. -/
def shlex_split (s : String) : Except String (List String) :=
  shlexGo s.data .norm none []

/-- `CommandParser.terminal_commands`. -/
def terminal_commands : List String := [
  "ls", "pwd", "cd", "mkdir", "rmdir", "rm", "cp", "mv", "touch",
  "cat", "head", "tail", "find", "tree", "stat",
  "echo", "grep", "wc", "sort", "diff", "sed", "awk",
  "system", "top", "ps", "uptime", "disk", "net", "who", "env",
  "ping", "curl", "wget", "nslookup", "ifconfig", "ip", "traceroute",
  "kill", "killall", "bg", "fg",
  "pip",
  "history", "clear", "date", "cal", "alias", "exit", "quit", "help"]

/-- `CommandParser._is_terminal_command`: tokenization failure means
`False`; otherwise test the lower-cased first token. -/
def is_terminal_command (user_input : String) : Bool :=
  match shlex_split user_input with
  | .error _ => false
  | .ok [] => false
  | .ok (t :: _) => terminal_commands.contains (PyStr.lower t)

open Rx in
/-- `CommandParser.natural_language_patterns`, translated regex by regex
(they are matched against the already lower-cased input). -/
def natural_language_patterns : List Rx.Re := [
  seqs [.bos, .alt (.str "create") (.alt (.str "make") (.str "build")), wsP],
  seqs [.bos, .alt (.str "show") (.alt (.str "display") (.str "list")), wsP],
  seqs [.bos, .alt (.str "copy") (.alt (.str "move") (.alt (.str "delete") (.str "remove"))), wsP],
  seqs [.bos, .alt (.str "find") (.alt (.str "search") (.str "locate")), wsP],
  seqs [.bos, .alt (.str "how") (.alt (.str "what") (.alt (.str "where")
    (.alt (.str "when") (.str "why")))), wsP],
  seqs [.bos, .alt (.str "can you") (.alt (.str "could you") (.str "please")), wsP],
  seqs [wsP, .alt (.str "please") (.alt (.str "for me") (.str "help")), wsS, .eol]]

def question_words : List String :=
  ["how", "what", "where", "when", "why", "which", "who"]

/-- `CommandParser._is_natural_language`. -/
def is_natural_language (user_input : String) : Bool :=
  let low := PyStr.lower user_input
  if natural_language_patterns.any (fun re => Rx.search re low) then true
  else if question_words.any (fun w => PyStr.startswith low w) then true
  else if (PyStr.splitWs user_input).length > 3 ∧ ¬ is_terminal_command user_input then true
  else false

/-- The dict produced by `CommandParser.parse`; `error` is `none` when
the Python dict lacks the key. -/
structure ParsedCommand where
  ptype : String
  command : String
  args : List String
  original : String
  error : Option String
deriving Repr, DecidableEq

/-- `CommandParser._parse_terminal_command`. -/
def parse_terminal_command (user_input : String) : ParsedCommand :=
  match shlex_split user_input with
  | .ok [] =>
    { ptype := "empty", command := "", args := [], original := user_input, error := none }
  | .ok (t :: rest) =>
    { ptype := "terminal_command", command := t, args := rest, original := user_input,
      error := none }
  | .error e =>
    { ptype := "parse_error", command := user_input, args := [], original := user_input,
      error := some e }

/-- `CommandParser.parse` (note the initial `strip`). -/
def parse (raw : String) : ParsedCommand :=
  let user_input := PyStr.strip raw
  if user_input = "" then
    { ptype := "empty", command := "", args := [], original := user_input, error := none }
  else if is_terminal_command user_input then parse_terminal_command user_input
  else if is_natural_language user_input then
    { ptype := "natural_language", command := user_input, args := [], original := user_input,
      error := none }
  else parse_terminal_command user_input

end CmdParse

namespace Exec

/-- A filesystem entry: a directory or a file with text content. -/
inductive Entry where
  | dir : Entry
  | file (content : String) : Entry
deriving Repr, DecidableEq

/-- The sandbox filesystem: an association list from canonical absolute
paths (component lists) to entries. -/
abbrev FS := List (List String × Entry)

/-- Resolve a `/`-separated path string to canonical components the way
the OS resolves it when a handler hands it to `os.*`: empty and `.`
segments vanish, `..` pops. -/
def toComps (p : String) : List String :=
  (PyStr.splitChar p '/').foldl (fun acc c =>
    if c = "" ∨ c = "." then acc
    else if c = ".." then acc.dropLast
    else acc ++ [c]) []

/-- Render canonical components back to an absolute path string. -/
def pathOfComps (k : List String) : String :=
  "/" ++ String.intercalate "/" k

def fsFind (fs : FS) (k : List String) : Option Entry :=
  (fs.find? (fun p => p.1 = k)).map (·.2)

/-- `os.path.exists` (the filesystem root always exists). -/
def fsExists (fs : FS) (p : String) : Bool :=
  toComps p = [] ∨ (fsFind fs (toComps p)).isSome

/-- `os.path.isdir`. -/
def fsIsDir (fs : FS) (p : String) : Bool :=
  toComps p = [] ∨ fsFind fs (toComps p) = some .dir

/-- `os.path.isfile`. -/
def fsIsFile (fs : FS) (p : String) : Bool :=
  match fsFind fs (toComps p) with
  | some (.file _) => true
  | _ => false

def fsSet (fs : FS) (k : List String) (e : Entry) : FS :=
  if (fs.find? (fun p => p.1 = k)).isSome then
    fs.map (fun p => if p.1 = k then (k, e) else p)
  else fs ++ [(k, e)]

/-- `shutil.rmtree` / subtree removal: drop the key and all descendants. -/
def fsRemoveTree (fs : FS) (k : List String) : FS :=
  fs.filter (fun p => ¬ k.isPrefixOf p.1)

/-- `os.remove`: drop a single key. -/
def fsRemoveOne (fs : FS) (k : List String) : FS :=
  fs.filter (fun p => p.1 ≠ k)

/-- All non-empty prefixes of a component path. -/
def prefixes (k : List String) : List (List String) :=
  (List.range k.length).map (fun i => k.take (i + 1))

/-- `os.makedirs(p, exist_ok=True)`: create every missing ancestor as a
directory; raise (here: return the `str(e)` text) if some prefix already
exists as a file. -/
def makedirs (fs : FS) (p : String) : Except String FS :=
  let k := toComps p
  if (prefixes k).any (fun pre =>
      match fsFind fs pre with | some (.file _) => true | _ => false) then
    .error ("[Errno 17] File exists: '" ++ p ++ "'")
  else
    .ok ((prefixes k).foldl (fun acc pre =>
      if (fsFind acc pre).isSome then acc else acc ++ [(pre, Entry.dir)]) fs)

/-- Host telemetry and `os.stat` metadata that the system/utility
handlers merely report (psutil, `/proc`, uid/mtime formatting): supplied
abstractly, since they are host state outside the filesystem model. -/
structure SysOracle where
  systemText : String
  psText : String
  uptimeText : String
  dateText : String
  envPairs : List String
  diskText : String → String
  statText : String → String
  lsSize : String → Nat
  lsMtime : String → String

/-- The mutable state of `CommandExecutor` plus the fixed construction
parameters: the process working directory (for `os.path.abspath`), the
sandbox root, the current-directory cursor and the filesystem. -/
structure ExecState where
  procCwd : String
  sandbox_dir : String
  current_dir : String
  fs : FS
  oracle : SysOracle

def max_file_size : Nat := 10485760
def max_output_length : Nat := 10000

/-- `CommandExecutor._safe_path`.  The Python `if path.startswith('../')`
branch and its `else` branch compute the same expression; they are folded
into one here. -/
def safe_path (st : ExecState) (path : String) : String :=
  if path = "" ∨ path = "." then st.current_dir
  else if path = ".." then
    let parent := Posix.dirname st.current_dir
    if PyStr.startswith parent st.sandbox_dir then parent else st.sandbox_dir
  else
    let path1 := if PyStr.startswith path "/" then PyStr.lstripSlash path else path
    let full_path := Posix.abspath st.procCwd (Posix.join2 st.current_dir path1)
    if ¬ PyStr.startswith full_path st.sandbox_dir then
      Posix.join2 st.sandbox_dir (Posix.basename path1)
    else full_path

/-- The dict returned by every handler and by `execute`. -/
structure ExecResult where
  success : Bool
  output : String
  error : Option String
deriving Repr, DecidableEq

/-- The failure shape `{'success': False, 'output': '', 'error': msg}`. -/
def fails (msg : String) : ExecResult :=
  { success := false, output := "", error := some msg }

/-- The success shape `{'success': True, 'output': out, 'error': None}`. -/
def oks (out : String) : ExecResult :=
  { success := true, output := out, error := none }

/-- Sorted string list (`sorted(...)` — Python's stable sort with default
string comparison). -/
def sortStrs (l : List String) : List String :=
  PyStr.pySortBy (fun a b => a ≤ b) l

/-- `os.listdir`, returned sorted (the OS order is unspecified and every
caller in the source sorts before emitting). -/
def listdir (fs : FS) (p : String) : List String :=
  let k := toComps p
  sortStrs (fs.filterMap (fun q =>
    if q.1.length = k.length + 1 ∧ k.isPrefixOf q.1 then q.1.getLast? else none))

/-- `CommandExecutor._handle_cd`. -/
def handle_cd (st : ExecState) (args : List String) : ExecResult × ExecState :=
  match args with
  | [] => (oks "", { st with current_dir := st.sandbox_dir })
  | a :: _ =>
    let target := safe_path st a
    if ¬ fsExists st.fs target then (fails ("Directory not found: " ++ a), st)
    else if ¬ fsIsDir st.fs target then (fails ("Not a directory: " ++ a), st)
    else (oks "", { st with current_dir := target })

/-- The loop body of `_handle_mkdir` (`os.makedirs(..., exist_ok=True)`
per name; an exception aborts the loop but keeps prior creations). -/
def mkdirLoop : ExecState → List String → ExecResult × ExecState
  | st, [] => (oks "", st)
  | st, d :: rest =>
    match makedirs st.fs (safe_path st d) with
    | .ok fs' => mkdirLoop { st with fs := fs' } rest
    | .error e => (fails e, st)

/-- `CommandExecutor._handle_mkdir`. -/
def handle_mkdir (st : ExecState) (args : List String) : ExecResult × ExecState :=
  if args = [] then (fails "mkdir: missing directory name", st)
  else mkdirLoop st args

/-- The loop body of `_handle_rm`: per file, missing targets fail unless
`force`; directories need `recursive`; deletions persist even when a
later file fails. -/
def rmLoop (recursive force : Bool) : ExecState → List String → ExecResult × ExecState
  | st, [] => (oks "", st)
  | st, f :: rest =>
    let fp := safe_path st f
    if ¬ fsExists st.fs fp then
      if ¬ force then (fails ("File not found: " ++ f), st)
      else rmLoop recursive force st rest
    else if fsIsDir st.fs fp then
      if recursive then
        rmLoop recursive force { st with fs := fsRemoveTree st.fs (toComps fp) } rest
      else (fails ("Cannot remove directory without -r flag: " ++ f), st)
    else rmLoop recursive force { st with fs := fsRemoveOne st.fs (toComps fp) } rest

/-- `CommandExecutor._handle_rm`: a `-x...` argument sets `recursive`
when it contains `r` or `R` and `force` when it contains `f`; the rest
are targets. -/
def handle_rm (st : ExecState) (args : List String) : ExecResult × ExecState :=
  if args = [] then (fails "rm: missing file/directory name", st)
  else
    let recursive := args.any (fun a =>
      PyStr.startswith a "-" ∧ (PyStr.containsSub a "r" ∨ PyStr.containsSub a "R"))
    let force := args.any (fun a => PyStr.startswith a "-" ∧ PyStr.containsSub a "f")
    let files := args.filter (fun a => ¬ PyStr.startswith a "-")
    rmLoop recursive force st files

/-- `CommandExecutor._handle_rmdir`: delegates to `rm` with `-r` added. -/
def handle_rmdir (st : ExecState) (args : List String) : ExecResult × ExecState :=
  handle_rm st (args ++ ["-r"])

/-- The loop body of `_handle_touch` (`Path(p).touch()`: no-op on an
existing entry, creation needs an existing parent directory; the
exception text is the `str(e)` of the OSError). -/
def touchLoop : ExecState → List String → ExecResult × ExecState
  | st, [] => (oks "", st)
  | st, f :: rest =>
    let fp := safe_path st f
    if fsExists st.fs fp then touchLoop st rest
    else
      let k := toComps fp
      let parent := k.dropLast
      if parent = [] ∨ fsFind st.fs parent = some Entry.dir then
        touchLoop { st with fs := fsSet st.fs k (Entry.file "") } rest
      else if (fsFind st.fs parent).isSome then
        (fails ("[Errno 20] Not a directory: '" ++ fp ++ "'"), st)
      else (fails ("[Errno 2] No such file or directory: '" ++ fp ++ "'"), st)

/-- `CommandExecutor._handle_touch`. -/
def handle_touch (st : ExecState) (args : List String) : ExecResult × ExecState :=
  if args = [] then (fails "touch: missing filename", st)
  else touchLoop st args

/-- The loop body of `_handle_cat`: check existence, directory-ness and
`os.path.getsize` against `max_file_size`, then truncate each content at
`max_output_length`. -/
def catLoop (st : ExecState) : List String → List String → ExecResult
  | outs, [] => oks (String.intercalate "\n" outs)
  | outs, f :: rest =>
    let fp := safe_path st f
    let k := toComps fp
    if k = [] then fails ("Is a directory: " ++ f)
    else match fsFind st.fs k with
    | none => fails ("File not found: " ++ f)
    | some .dir => fails ("Is a directory: " ++ f)
    | some (.file content) =>
      if content.length > max_file_size then fails ("File too large: " ++ f)
      else
        let content' :=
          if content.length > max_output_length then
            String.mk (content.data.take max_output_length) ++ "\n... (output truncated)"
          else content
        catLoop st (outs ++ [content']) rest

/-- `CommandExecutor._handle_cat`. -/
def handle_cat (st : ExecState) (args : List String) : ExecResult × ExecState :=
  if args = [] then (fails "cat: missing filename", st)
  else (catLoop st [] args, st)

/-- `CommandExecutor._handle_echo`. -/
def handle_echo (st : ExecState) (args : List String) : ExecResult × ExecState :=
  (oks (String.intercalate " " args), st)

/-- `CommandExecutor._handle_pwd`. -/
def handle_pwd (st : ExecState) (_args : List String) : ExecResult × ExecState :=
  let rel := Posix.relpath st.procCwd st.current_dir st.sandbox_dir
  (oks (if rel = "." then "/" else "/" ++ rel), st)

/-- `CommandExecutor._handle_cp`: missing source and existing destination
fail; a directory destination redirects to `dest/basename(source)`;
`shutil.copy2` copies a file, `shutil.copytree` a subtree (creating the
destination path like `os.makedirs`). -/
def handle_cp (st : ExecState) (args : List String) : ExecResult × ExecState :=
  match args with
  | a0 :: a1 :: _ =>
    let source_path := safe_path st a0
    let dest_path0 := safe_path st a1
    let sk := toComps source_path
    match fsFind st.fs sk with
    | none =>
      (fails ("cp: cannot stat '" ++ a0 ++ "': No such file or directory"), st)
    | some e =>
      let dest_path :=
        if fsIsDir st.fs dest_path0 then Posix.join2 dest_path0 (Posix.basename source_path)
        else dest_path0
      if fsExists st.fs dest_path then
        (fails ("cp: cannot copy '" ++ a0 ++ "' to '" ++ a1 ++ "': File exists"), st)
      else
        let dk := toComps dest_path
        match e with
        | .file content =>
          if dk ≠ [] ∧ (dk.dropLast = [] ∨ fsFind st.fs dk.dropLast = some Entry.dir) then
            (oks "", { st with fs := fsSet st.fs dk (Entry.file content) })
          else
            (fails ("cp: [Errno 2] No such file or directory: '" ++ dest_path ++ "'"), st)
        | .dir =>
          match makedirs st.fs dest_path with
          | .error msg => (fails ("cp: " ++ msg), st)
          | .ok fs1 =>
            let subtree := st.fs.filterMap (fun p =>
              if sk.isPrefixOf p.1 ∧ p.1 ≠ sk then some (dk ++ p.1.drop sk.length, p.2)
              else none)
            (oks "", { st with fs := subtree.foldl (fun acc kv => fsSet acc kv.1 kv.2) fs1 })
  | _ => (fails "cp: missing file operand. Usage: cp SOURCE DEST", st)

/-- `CommandExecutor._handle_mv`: like `cp` but `shutil.move` re-keys the
source (sub)tree to the destination. -/
def handle_mv (st : ExecState) (args : List String) : ExecResult × ExecState :=
  match args with
  | a0 :: a1 :: _ =>
    let source_path := safe_path st a0
    let dest_path0 := safe_path st a1
    let sk := toComps source_path
    match fsFind st.fs sk with
    | none =>
      (fails ("mv: cannot stat '" ++ a0 ++ "': No such file or directory"), st)
    | some _ =>
      let dest_path :=
        if fsIsDir st.fs dest_path0 then Posix.join2 dest_path0 (Posix.basename source_path)
        else dest_path0
      if fsExists st.fs dest_path then
        (fails ("mv: cannot move '" ++ a0 ++ "' to '" ++ a1 ++ "': File exists"), st)
      else
        let dk := toComps dest_path
        if dk ≠ [] ∧ (dk.dropLast = [] ∨ fsFind st.fs dk.dropLast = some Entry.dir) then
          let moved := st.fs.map (fun p =>
            if sk.isPrefixOf p.1 then (dk ++ p.1.drop sk.length, p.2) else p)
          (oks "", { st with fs := moved })
        else
          (fails ("mv: [Errno 2] No such file or directory: '" ++ dest_path ++ "'"), st)
  | _ => (fails "mv: missing file operand. Usage: mv SOURCE DEST", st)

/-- The lines yielded by iterating a Python text file (or `readlines()`):
every line keeps its trailing newline except a final unterminated one. -/
def pyFileLinesRaw (content : String) : List String :=
  let parts := PyStr.splitChar content '\n'
  let init := (parts.dropLast).map (· ++ "\n")
  match parts.getLast? with
  | some last => if last = "" then init else init ++ [last]
  | none => init

/-- The option-parsing loop shared by `_handle_head` and `_handle_tail`:
`-n N`, `-N`, otherwise the (last) file operand; a bad `-n` argument is
returned as the offending string. -/
def htParse : List String → Int → Option String → Except String (Int × Option String)
  | [], lines, fp => .ok (lines, fp)
  | "-n" :: b :: rest, _lines, fp =>
    (match PyStr.toInt b with
     | some n => htParse rest n fp
     | none => .error b)
  | a :: rest, lines, _fp₀ =>
    if PyStr.startswith a "-" ∧ PyStr.isdigitStr (String.mk (a.data.drop 1)) then
      match PyStr.toInt (String.mk (a.data.drop 1)) with
      | some n => htParse rest n _fp₀
      | none => htParse rest lines _fp₀
    else htParse rest lines (some a)

/-- Python `xs[-k:]` (the tail slice used by `_handle_tail`). -/
def pySliceFromNeg {α : Type} (xs : List α) (k : Int) : List α :=
  if k > 0 then xs.drop (xs.length - k.toNat)
  else xs.drop (min xs.length (-k).toNat)

/-- `CommandExecutor._handle_head`. -/
def handle_head (st : ExecState) (args : List String) : ExecResult × ExecState :=
  match htParse args 10 none with
  | .error b => (fails ("head: invalid number of lines: " ++ b), st)
  | .ok (_, none) => (fails "head: missing file operand", st)
  | .ok (lines, some f) =>
    let sp := safe_path st f
    let k := toComps sp
    if k = [] then (fails ("head: error reading '" ++ f ++ "': Is a directory"), st)
    else match fsFind st.fs k with
    | none =>
      (fails ("head: cannot open '" ++ f ++ "' for reading: No such file or directory"), st)
    | some .dir => (fails ("head: error reading '" ++ f ++ "': Is a directory"), st)
    | some (.file content) =>
      let taken := if lines ≤ 0 then [] else (pyFileLinesRaw content).take lines.toNat
      (oks (String.intercalate "\n" (taken.map PyStr.rstrip)), st)

/-- `CommandExecutor._handle_tail`. -/
def handle_tail (st : ExecState) (args : List String) : ExecResult × ExecState :=
  match htParse args 10 none with
  | .error b => (fails ("tail: invalid number of lines: " ++ b), st)
  | .ok (_, none) => (fails "tail: missing file operand", st)
  | .ok (lines, some f) =>
    let sp := safe_path st f
    let k := toComps sp
    if k = [] then (fails ("tail: error reading '" ++ f ++ "': Is a directory"), st)
    else match fsFind st.fs k with
    | none =>
      (fails ("tail: cannot open '" ++ f ++ "' for reading: No such file or directory"), st)
    | some .dir => (fails ("tail: error reading '" ++ f ++ "': Is a directory"), st)
    | some (.file content) =>
      let all_lines := pyFileLinesRaw content
      let result :=
        if (all_lines.length : Int) > lines then pySliceFromNeg all_lines lines else all_lines
      (oks (String.intercalate "\n" (result.map PyStr.rstrip)), st)

/-- `CommandExecutor._handle_find`: enumerate the proper descendants of
the start directory (what `os.walk` visits), filter by substring, emit
paths relative to the current directory, sorted. -/
def handle_find (st : ExecState) (args : List String) : ExecResult × ExecState :=
  let sdp : String × String :=
    match args with
    | [] => (st.current_dir, "*")
    | [a] => (st.current_dir, a)
    | a :: b :: _ => (safe_path st a, b)
  let pattern := sdp.2
  let search_dir := if ¬ PyStr.startswith sdp.1 st.sandbox_dir then st.sandbox_dir else sdp.1
  let k := toComps search_dir
  let results := st.fs.filterMap (fun p =>
    if k.isPrefixOf p.1 ∧ p.1 ≠ k then
      match p.1.getLast? with
      | some name =>
        if pattern = "*" ∨ PyStr.containsSub name pattern then
          some ("./" ++ Posix.relpath st.procCwd (pathOfComps p.1) st.current_dir)
        else none
      | none => none
    else none)
  if results = [] then
    (oks ("find: no files or directories matching \"" ++ pattern ++ "\" found"), st)
  else (oks (String.intercalate "\n" (sortStrs results)), st)

/-- Option parsing of `_handle_tree` (`-L N`, `-LN`, else target path;
the last path argument wins).  A bad level is returned as the offending
string, which the handler wraps in `tree: invalid level: ...`. -/
def treeParseArgs (st : ExecState) : List String → String → Option Int →
    Except String (String × Option Int)
  | [], root, md => .ok (root, md)
  | "-L" :: b :: rest, root, _md₀ =>
    (match PyStr.toInt b with
     | some n => treeParseArgs st rest root (some n)
     | none => .error b)
  | a :: rest, root, md =>
    if PyStr.startswith a "-L" ∧ a.length > 2 then
      match PyStr.toInt (String.mk (a.data.drop 2)) with
      | some n => treeParseArgs st rest root (some n)
      | none => .error (String.mk (a.data.drop 2))
    else treeParseArgs st rest (safe_path st a) md

/-- Depth bound of the filesystem, used as recursion fuel for the tree
walk (the walk only descends into existing directories, whose keys are
never longer than this bound, so the fuel never runs out). -/
def fsDepth (fs : FS) : Nat :=
  fs.foldl (fun m p => max m p.1.length) 0

/-- `generate_tree` inside `_handle_tree`: sorted entries, directories
first, box-drawing prefixes, recursion limited by `max_depth`. -/
def genTree (fs : FS) (maxDepth : Option Int) :
    Nat → List String → String → Int → List String
  | 0, _, _, _ => []
  | fuel + 1, k, pref, depth =>
    if maxDepth.any (fun md => depth ≥ md) then []
    else
      let entries := listdir fs (pathOfComps k)
      let ds := entries.filter (fun e => fsFind fs (k ++ [e]) = some Entry.dir)
      let fls := entries.filter (fun e =>
        match fsFind fs (k ++ [e]) with | some (.file _) => true | _ => false)
      let all := ds ++ fls
      (all.enum.map (fun ei =>
        let isLast := ei.1 = all.length - 1
        let line := pref ++ (if isLast then "└── " else "├── ") ++ ei.2
        let sub :=
          if ds.contains ei.2 ∧ (maxDepth.all (fun md => depth + 1 < md)) then
            genTree fs maxDepth fuel (k ++ [ei.2])
              (pref ++ (if isLast then "    " else "│   ")) (depth + 1)
          else []
        line :: sub)).flatten

/-- `CommandExecutor._handle_tree`. -/
def handle_tree (st : ExecState) (args : List String) : ExecResult × ExecState :=
  match treeParseArgs st args st.current_dir none with
  | .error b => (fails ("tree: invalid level: " ++ b), st)
  | .ok (root_path, max_depth) =>
    let display :=
      match args with
      | a :: _ => if ¬ PyStr.startswith a "-" then a else root_path
      | [] => root_path
    if ¬ fsExists st.fs root_path then
      (fails ("tree: " ++ display ++ ": No such file or directory"), st)
    else if ¬ fsIsDir st.fs root_path then
      (fails ("tree: " ++ display ++ ": Not a directory"), st)
    else
      let k := toComps root_path
      let root_name :=
        if Posix.basename root_path = "" then root_path else Posix.basename root_path
      let tree_lines := genTree st.fs max_depth (fsDepth st.fs + 1) k "" 0
      let dir_count := (st.fs.filter (fun p =>
        k.isPrefixOf p.1 ∧ p.1 ≠ k ∧ p.2 = Entry.dir)).length
      let file_count := (st.fs.filter (fun p =>
        k.isPrefixOf p.1 ∧ p.1 ≠ k ∧ p.2 ≠ Entry.dir)).length
      let result := [root_name] ++ tree_lines ++
        ["", toString dir_count ++ " directories, " ++ toString file_count ++ " files"]
      (oks (String.intercalate "\n" result), st)

/-- `CommandExecutor._handle_stat`: the existence check and the `File:`
header are filesystem logic; the stat block body (sizes, uid/gid, the
three timestamps) is host metadata from the oracle. -/
def handle_stat (st : ExecState) (args : List String) : ExecResult × ExecState :=
  match args with
  | [] => (fails "stat: missing operand", st)
  | f :: _ =>
    let sp := safe_path st f
    if ¬ fsExists st.fs sp then
      (fails ("stat: cannot stat '" ++ f ++ "': No such file or directory"), st)
    else (oks ("  File: " ++ f ++ "\n" ++ st.oracle.statText sp), st)

/-- `CommandExecutor._handle_grep`: per-file errors become output lines,
the result is always a success. -/
def handle_grep (st : ExecState) (args : List String) : ExecResult × ExecState :=
  match args with
  | pattern :: f1 :: frest =>
    let file_paths := f1 :: frest
    let multi := file_paths.length > 1
    let results := file_paths.flatMap (fun fp =>
      let sp := safe_path st fp
      let k := toComps sp
      if k = [] then ["grep: " ++ fp ++ ": Is a directory"]
      else match fsFind st.fs k with
      | none => ["grep: " ++ fp ++ ": No such file or directory"]
      | some .dir => ["grep: " ++ fp ++ ": Is a directory"]
      | some (.file content) =>
        (pyFileLinesRaw content).enum.filterMap (fun li =>
          if PyStr.containsSub li.2 pattern then
            some (if multi then fp ++ ":" ++ toString (li.1 + 1) ++ ":" ++ PyStr.rstrip li.2
                  else toString (li.1 + 1) ++ ":" ++ PyStr.rstrip li.2)
          else none))
    (oks (String.intercalate "\n" results), st)
  | _ => (fails "grep: usage: grep pattern file [file...]", st)

/-- Flag parsing of `_handle_wc`: each of `-l`, `-w`, `-c` resets all
three selectors. -/
def wcFlags : List String → (Bool × Bool × Bool) → List String →
    ((Bool × Bool × Bool) × List String)
  | [], flags, files => (flags, files)
  | "-l" :: rest, _, files => wcFlags rest (true, false, false) files
  | "-w" :: rest, _, files => wcFlags rest (false, true, false) files
  | "-c" :: rest, _, files => wcFlags rest (false, false, true) files
  | a :: rest, flags, files => wcFlags rest flags (files ++ [a])

/-- `content.count('\n')`. -/
def countNl (s : String) : Nat := s.data.countP (· = '\n')

/-- The per-file body of `_handle_wc`, accumulating the running totals
(only successfully read files contribute). -/
def wcLoop (st : ExecState) (fl : Bool × Bool × Bool) :
    List String → List String → Nat → Nat → Nat → List String × (Nat × Nat × Nat)
  | [], results, tl, tw, tc => (results, (tl, tw, tc))
  | fp :: rest, results, tl, tw, tc =>
    let sp := safe_path st fp
    let k := toComps sp
    if k = [] then
      wcLoop st fl rest (results ++ ["wc: " ++ fp ++ ": Is a directory"]) tl tw tc
    else match fsFind st.fs k with
    | none =>
      wcLoop st fl rest (results ++ ["wc: " ++ fp ++ ": No such file or directory"]) tl tw tc
    | some .dir =>
      wcLoop st fl rest (results ++ ["wc: " ++ fp ++ ": Is a directory"]) tl tw tc
    | some (.file content) =>
      let lines := countNl content
      let words := (PyStr.splitWs content).length
      let chars := content.length
      let counts := (if fl.1 then [toString lines] else []) ++
        (if fl.2.1 then [toString words] else []) ++
        (if fl.2.2 then [toString chars] else [])
      wcLoop st fl rest (results ++ [String.intercalate " " counts ++ " " ++ fp])
        (tl + lines) (tw + words) (tc + chars)

/-- `CommandExecutor._handle_wc`. -/
def handle_wc (st : ExecState) (args : List String) : ExecResult × ExecState :=
  if args = [] then (fails "wc: missing file operand", st)
  else
    let parsed := wcFlags args (true, true, true) []
    let fl := parsed.1
    let files := parsed.2
    if files = [] then (fails "wc: missing file operand", st)
    else
      let looped := wcLoop st fl files [] 0 0 0
      let results := looped.1
      let results :=
        if files.length > 1 then
          let counts := (if fl.1 then [toString looped.2.1] else []) ++
            (if fl.2.1 then [toString looped.2.2.1] else []) ++
            (if fl.2.2 then [toString looped.2.2.2] else [])
          results ++ [String.intercalate " " counts ++ " total"]
        else results
      (oks (String.intercalate "\n" results), st)

/-- The numeric-key gate of `_handle_sort -n`:
`x.replace('.', '').replace('-', '').isdigit()`. -/
def numGate (x : String) : Bool :=
  PyStr.isdigitStr (String.mk (x.data.filter (fun c => c ≠ '.' ∧ c ≠ '-')))

/-- Python `float(x)` for gate-passing strings (digits, dots, dashes):
optional leading minus, then digits with at most one dot and at least one
digit.  The binary-float rounding of CPython is abstracted to exact
rationals (it can only reorder keys that are equal to ~17 digits). -/
def pyFloat? (x : String) : Option ℚ :=
  let l := x.data
  let signAndRest : Bool × List Char :=
    match l with
    | '-' :: r => (true, r)
    | r => (false, r)
  let neg := signAndRest.1
  let l1 := signAndRest.2
  let intPart := l1.takeWhile Char.isDigit
  let rest := l1.drop intPart.length
  let digitsVal : List Char → ℚ := fun ds =>
    ((ds.foldl (fun acc c => acc * 10 + (c.toNat - '0'.toNat)) 0 : Nat) : ℚ)
  match rest with
  | [] =>
    if intPart ≠ [] then
      some ((if neg then -1 else 1) * digitsVal intPart)
    else none
  | '.' :: frac =>
    if frac.all Char.isDigit ∧ (intPart ≠ [] ∨ frac ≠ []) then
      some ((if neg then -1 else 1) *
        (digitsVal intPart + digitsVal frac / ((10 : ℚ) ^ frac.length)))
    else none
  | _ => none

/-- The comparison induced by `key=lambda x: float(x) if ... else inf`. -/
def numLe (a b : String) : Bool :=
  let ka := if numGate a then pyFloat? a else none
  let kb := if numGate b then pyFloat? b else none
  match ka, kb with
  | some x, some y => decide (x ≤ y)
  | some _, none => true
  | none, some _ => false
  | none, none => true

/-- The reading loop of `_handle_sort`: collect the rstripped lines of
every operand, aborting on the first missing or directory operand. -/
def sortRead (st : ExecState) : List String → List String → Except ExecResult (List String)
  | [], ls => .ok ls
  | fp :: rest, ls =>
    let sp := safe_path st fp
    let k := toComps sp
    if k = [] then
      .error (fails ("sort: read failed: " ++ fp ++ ": Is a directory"))
    else match fsFind st.fs k with
    | none =>
      .error (fails ("sort: cannot read: " ++ fp ++ ": No such file or directory"))
    | some .dir =>
      .error (fails ("sort: read failed: " ++ fp ++ ": Is a directory"))
    | some (.file content) =>
      sortRead st rest (ls ++ (pyFileLinesRaw content).map PyStr.rstrip)

/-- `CommandExecutor._handle_sort`: read all lines of all operands
(first missing/dir operand aborts), rstrip them, then stable-sort.  With
`-n`, a line passing the digit gate whose `float()` still raises (for
example `1.2.3`) makes the whole keyed sort raise, and the bare `except`
falls back to the plain sort. -/
def handle_sort (st : ExecState) (args : List String) : ExecResult × ExecState :=
  if args = [] then (fails "sort: missing file operand", st)
  else
    let reverse := args.contains "-r"
    let numeric := args.contains "-n"
    let files := args.filter (fun a => a ≠ "-r" ∧ a ≠ "-n")
    if files = [] then (fails "sort: missing file operand", st)
    else
      match sortRead st files [] with
      | .error e => (e, st)
      | .ok all_lines =>
        let plainLe : String → String → Bool :=
          if reverse then fun a b => decide (b ≤ a) else fun a b => decide (a ≤ b)
        let keyLe : String → String → Bool :=
          if reverse then fun a b => numLe b a else numLe
        let sorted :=
          if numeric then
            if all_lines.any (fun x => numGate x ∧ (pyFloat? x).isNone) then
              PyStr.pySortBy plainLe all_lines
            else PyStr.pySortBy keyLe all_lines
          else PyStr.pySortBy plainLe all_lines
        (oks (String.intercalate "\n" sorted), st)

/-- `CommandExecutor._handle_system` (psutil telemetry, reported via the
oracle; the handler has no filesystem logic). -/
def handle_system (st : ExecState) (_args : List String) : ExecResult × ExecState :=
  (oks st.oracle.systemText, st)

/-- `CommandExecutor._handle_ps`. -/
def handle_ps (st : ExecState) (_args : List String) : ExecResult × ExecState :=
  (oks st.oracle.psText, st)

/-- `CommandExecutor._handle_uptime`. -/
def handle_uptime (st : ExecState) (_args : List String) : ExecResult × ExecState :=
  (oks st.oracle.uptimeText, st)

/-- `CommandExecutor._handle_disk`: the existence check is filesystem
logic, the `df`-style text is host telemetry. -/
def handle_disk (st : ExecState) (args : List String) : ExecResult × ExecState :=
  let path := match args with | [] => st.current_dir | a :: _ => safe_path st a
  if ¬ fsExists st.fs path then
    let display := match args with | [] => path | a :: _ => a
    (fails ("disk: " ++ display ++ ": No such file or directory"), st)
  else (oks (st.oracle.diskText path), st)

/-- `CommandExecutor._handle_env`: filtered host variables from the
oracle plus the three synthetic entries. -/
def handle_env (st : ExecState) (_args : List String) : ExecResult × ExecState :=
  (oks (String.intercalate "\n" (st.oracle.envPairs ++
    ["TERMINAL_TYPE=web_terminal", "SANDBOX_MODE=enabled",
     "CURRENT_DIR=" ++ st.current_dir])), st)

/-- `CommandExecutor._handle_date`. -/
def handle_date (st : ExecState) (_args : List String) : ExecResult × ExecState :=
  (oks st.oracle.dateText, st)

/-- The static text of `_handle_help`. -/
def helpText : String :=
  "Available Commands:\n\nFile Operations:\n" ++
  "  ls [options] [dir]  - List directory contents\n" ++
  "  pwd                 - Print current directory\n" ++
  "  cd [dir]            - Change directory\n" ++
  "  mkdir <dir>         - Create directory\n" ++
  "  rm [options] <file> - Remove files/directories\n" ++
  "  cp <src> <dest>     - Copy files/directories\n" ++
  "  mv <src> <dest>     - Move/rename files/directories\n" ++
  "  touch <file>        - Create empty file\n" ++
  "  cat <file>          - Display file contents\n\nText Operations:\n" ++
  "  echo <text>         - Display text\n" ++
  "  grep <pattern> <file> - Search text patterns\n" ++
  "  wc <file>           - Count words, lines, characters\n\nSystem Info:\n" ++
  "  system              - Show system information\n" ++
  "  ps                  - List processes\n" ++
  "  uptime              - Show system uptime\n" ++
  "  date                - Show current date/time\n\nUtility:\n" ++
  "  help                - Show this help\n" ++
  "  clear               - Clear screen\n" ++
  "  history             - Show command history\n\nNatural Language:\n" ++
  "You can also use natural language commands like:\n" ++
  "\"create a folder called test\"\n" ++
  "\"show me all files in the current directory\"\n" ++
  "\"copy file1.txt to backup.txt\"\n"

/-- `CommandExecutor._handle_help`. -/
def handle_help (st : ExecState) (_args : List String) : ExecResult × ExecState :=
  (oks helpText, st)

/-- `CommandExecutor._handle_clear`. -/
def handle_clear (st : ExecState) (_args : List String) : ExecResult × ExecState :=
  (oks "\x1b[2J\x1b[H", st)

/-- `CommandExecutor._handle_history`. -/
def handle_history (st : ExecState) (_args : List String) : ExecResult × ExecState :=
  (oks "Command history will be displayed here", st)

/-- `CommandExecutor._handle_ls`. -/
def handle_ls (st : ExecState) (args : List String) : ExecResult × ExecState :=
  let target_dir := args.foldl (fun acc arg =>
    if PyStr.startswith arg "-" then acc else safe_path st arg) st.current_dir
  let show_hidden := args.any (fun a => PyStr.startswith a "-" ∧ PyStr.containsSub a "a")
  let long_format := args.any (fun a => PyStr.startswith a "-" ∧ PyStr.containsSub a "l")
  if ¬ fsExists st.fs target_dir then
    (fails ("Directory not found: " ++ target_dir), st)
  else if ¬ fsIsDir st.fs target_dir then
    (fails ("Not a directory: " ++ target_dir), st)
  else
    let names := (listdir st.fs target_dir).filter (fun n =>
      show_hidden ∨ ¬ PyStr.startswith n ".")
    let items := names.map (fun item =>
      if long_format then
        let item_path := Posix.join2 target_dir item
        let perms := if fsIsDir st.fs item_path then "drwxr-xr-x" else "-rw-r--r--"
        perms ++ " " ++ PyStr.padLeft (toString (st.oracle.lsSize item_path)) 8 ++ " " ++
          st.oracle.lsMtime item_path ++ " " ++ item
      else item)
    (oks (String.intercalate "\n" (sortStrs items)), st)

/-- The key set of `CommandExecutor.command_handlers`. -/
def handlerNames : List String := [
  "ls", "pwd", "cd", "mkdir", "rmdir", "rm", "cp", "mv", "touch", "cat",
  "head", "tail", "find", "tree", "stat",
  "echo", "grep", "wc", "sort",
  "system", "ps", "uptime", "disk", "env", "date",
  "help", "clear", "history"]

/-- Dispatch through `command_handlers`; callers check membership in
`handlerNames` first, exactly as the source checks
`command in self.command_handlers` (the catch-all is unreachable). -/
def runHandler (st : ExecState) (name : String) (args : List String) :
    ExecResult × ExecState :=
  match name with
  | "ls" => handle_ls st args
  | "pwd" => handle_pwd st args
  | "cd" => handle_cd st args
  | "mkdir" => handle_mkdir st args
  | "rmdir" => handle_rmdir st args
  | "rm" => handle_rm st args
  | "cp" => handle_cp st args
  | "mv" => handle_mv st args
  | "touch" => handle_touch st args
  | "cat" => handle_cat st args
  | "head" => handle_head st args
  | "tail" => handle_tail st args
  | "find" => handle_find st args
  | "tree" => handle_tree st args
  | "stat" => handle_stat st args
  | "echo" => handle_echo st args
  | "grep" => handle_grep st args
  | "wc" => handle_wc st args
  | "sort" => handle_sort st args
  | "system" => handle_system st args
  | "ps" => handle_ps st args
  | "uptime" => handle_uptime st args
  | "disk" => handle_disk st args
  | "env" => handle_env st args
  | "date" => handle_date st args
  | "help" => handle_help st args
  | "clear" => handle_clear st args
  | "history" => handle_history st args
  | _ => (fails "unreachable handler", st)

/-- The loop of `_execute_multi_command`: split on `&&`, strip, skip
empty segments, whitespace-split each segment, dispatch, collect
non-empty outputs, abort on the first failure with the partial output
and the failing segment's error. -/
def multiLoop : ExecState → List String → List String → ExecResult × ExecState
  | st, outs, [] => ({ success := true, output := String.intercalate "\n" outs, error := none }, st)
  | st, outs, cmd :: rest =>
    if cmd = "" then multiLoop st outs rest
    else match PyStr.splitWs cmd with
    | [] => multiLoop st outs rest
    | name :: cargs =>
      if handlerNames.contains name then
        let rs := runHandler st name cargs
        if rs.1.success = false then
          ({ success := false,
             output := String.intercalate "\n" outs ++ "\n" ++ rs.1.output,
             error := rs.1.error }, rs.2)
        else if rs.1.output ≠ "" then multiLoop rs.2 (outs ++ [rs.1.output]) rest
        else multiLoop rs.2 outs rest
      else
        ({ success := false, output := String.intercalate "\n" outs,
           error := some ("Unknown command: " ++ name) }, st)

/-- `CommandExecutor._execute_multi_command`. -/
def execute_multi_command (st : ExecState) (full_command : String) :
    ExecResult × ExecState :=
  multiLoop st []
    ((PyStr.splitOnPair '&' '&' full_command.data).map (fun l => PyStr.strip (String.mk l)))

/-- `CommandExecutor.execute`. -/
def execute (st : ExecState) (command : String) (args : List String)
    (command_type : String) : ExecResult × ExecState :=
  if command_type = "empty" then (oks "", st)
  else if command_type = "parse_error" then (fails "Command parsing error", st)
  else if command_type = "ai_generated" then
    if command = "multi_command" ∧ args ≠ [] then
      execute_multi_command st (args.headD "")
    else
      let full_command :=
        command ++ (if args ≠ [] then " " ++ String.intercalate " " args else "")
      if PyStr.containsSub full_command "&&" then execute_multi_command st full_command
      else if handlerNames.contains command then runHandler st command args
      else
        (fails ("Unknown command: " ++ command ++ ". Type \"help\" for available commands."), st)
  else if handlerNames.contains command then runHandler st command args
  else (fails ("Unknown command: " ++ command ++ ". Type \"help\" for available commands."), st)

end Exec

/-- Preservation of the sandbox session fields: the construction
parameters are untouched and the current-directory cursor stays
sandbox-prefixed. -/
def cursorOK (st st' : Exec.ExecState) : Prop :=
  st'.procCwd = st.procCwd ∧ st'.sandbox_dir = st.sandbox_dir ∧
  (PyStr.startswith st.current_dir st.sandbox_dir = true →
    PyStr.startswith st'.current_dir st'.sandbox_dir = true)

/-- A fixed oracle for concrete runs (its values are never branched on). -/
def sampleOracle : Exec.SysOracle := {
  systemText := "System Information"
  psText := "  PID  %CPU %MEM COMMAND"
  uptimeText := " 00:00:00 up 1 min, 1 user, load average: 0.00, 0.00, 0.00"
  dateText := "2024-01-01 00:00:00"
  envPairs := ["HOME=/root"]
  diskText := fun _ => "Filesystem     Size  Used Avail Use% Mounted on"
  statText := fun _ => "  Size: 0"
  lsSize := fun _ => 0
  lsMtime := fun _ => "2024-01-01 00:00" }

/-- An executor freshly anchored at `/sandbox` with an empty sandbox. -/
def execSt0 : Exec.ExecState := {
  procCwd := "/"
  sandbox_dir := "/sandbox"
  current_dir := "/sandbox"
  fs := [(["sandbox"], Exec.Entry.dir)]
  oracle := sampleOracle }

/-- The error half of C9's failure contract: a failing result carries a
non-empty error message. -/
def errShape (r : Exec.ExecResult) : Prop :=
  r.success = false → ∃ m, r.error = some m ∧ m ≠ ""

/-- The full failure contract of C9: a failing result carries an empty
output and a non-empty error message. -/
def failShape (r : Exec.ExecResult) : Prop :=
  r.success = false → r.output = "" ∧ ∃ m, r.error = some m ∧ m ≠ ""

/-- The dispatch condition under which `execute` reaches
`_execute_multi_command` (the only path whose failures carry partial
output). -/
def multiPath (command : String) (args : List String) (command_type : String) : Prop :=
  command_type = "ai_generated" ∧
    (command = "multi_command" ∧ args ≠ [] ∨
      PyStr.containsSub
        (command ++ (if args ≠ [] then " " ++ String.intercalate " " args else ""))
        "&&" = true)

instance (c : String) (a : List String) (k : String) : Decidable (multiPath c a k) := by
  unfold multiPath
  infer_instance

instance {ε α : Type} [DecidableEq ε] [DecidableEq α] : DecidableEq (Except ε α)
  | .ok a, .ok b =>
    if h : a = b then .isTrue (by rw [h]) else .isFalse (by intro hh; cases hh; exact h rfl)
  | .ok _, .error _ => .isFalse (by intro h; cases h)
  | .error _, .ok _ => .isFalse (by intro h; cases h)
  | .error e, .error f =>
    if h : e = f then .isTrue (by rw [h]) else .isFalse (by intro hh; cases hh; exact h rfl)

/-- A 1001-character input, one over `max_command_length`. -/
def longInput : String := String.mk (List.replicate 1001 'a')

/-- Suspicion counter recorded for `ip` (0 when absent). -/
def suspCount (st : Security.SecState) (ip : String) : Nat :=
  ((Security.alookup st.suspicious_activity ip).map (·.count)).getD 0

/-- Number of stored rate-limit timestamps for `ip`. -/
def rateLen (st : Security.SecState) (ip : String) : Nat :=
  ((Security.alookup st.rate_limit_storage ip).getD []).length

/-- Iterated `validate_input` for one caller: the per-request results in
order, and the final security state. -/
def validateRun (st : Security.SecState) (x ip : String) :
    List Int → List Security.VResult × Security.SecState
  | [] => ([], st)
  | t :: ts =>
      let p := Security.validate_input st x (some ip) t
      let q := validateRun p.2 x ip ts
      (p.1 :: q.1, q.2)

/-- A sandbox holding one file strictly larger than the 10 MiB cap. -/
def stHuge : Exec.ExecState :=
  { execSt0 with fs := [(["sandbox"], Exec.Entry.dir),
      (["sandbox", "huge.txt"], Exec.Entry.file (String.mk (List.replicate 10485761 'a')))] }

/-- A sandbox holding two 6000-character files. -/
def stTwo : Exec.ExecState :=
  { execSt0 with fs := [(["sandbox"], Exec.Entry.dir),
      (["sandbox", "a.txt"], Exec.Entry.file (String.mk (List.replicate 6000 'a'))),
      (["sandbox", "b.txt"], Exec.Entry.file (String.mk (List.replicate 6000 'b')))] }

/-- A sandbox holding one 10001-character file: one character past the
truncation threshold, well under the file-size cap. -/
def stBig : Exec.ExecState :=
  { execSt0 with fs := [(["sandbox"], Exec.Entry.dir),
      (["sandbox", "big.txt"], Exec.Entry.file (String.mk (List.replicate 10001 'a')))] }

/-! ### Confinement (claim C1) -/

theorem startswith_refl (s : String) : PyStr.startswith s s = true := by
  unfold PyStr.startswith
  exact List.isPrefixOf_iff_prefix.mpr (List.prefix_refl _)

theorem startswith_append (s t : String) : PyStr.startswith (s ++ t) s = true := by
  unfold PyStr.startswith
  rw [String.data_append]
  exact List.isPrefixOf_iff_prefix.mpr (List.prefix_append _ _)

theorem basename_not_slash (p : String) :
    PyStr.startswith (Posix.basename p) "/" = false := by
  unfold PyStr.startswith Posix.basename
  cases h : (p.data.reverse.takeWhile (· ≠ '/')).reverse with
  | nil => rfl
  | cons c cs =>
    have hc : c ∈ p.data.reverse.takeWhile (· ≠ '/') := by
      rw [← List.mem_reverse, h]; exact List.mem_cons_self c cs
    have hne : c ≠ '/' := by simpa using List.mem_takeWhile_imp hc
    show List.isPrefixOf ['/'] (c :: cs) = false
    have hb : ('/' == c) = false := beq_eq_false_iff_ne.mpr (fun hcc => hne hcc.symm)
    simp [List.isPrefixOf, hb]

theorem join2_startswith (s b : String) (h : PyStr.startswith b "/" = false) :
    PyStr.startswith (Posix.join2 s b) s = true := by
  unfold Posix.join2
  rw [h]
  simp only [Bool.false_eq_true, if_false]
  split
  · exact startswith_append s b
  · have : s ++ "/" ++ b = s ++ ("/" ++ b) := by
      apply String.ext
      simp [String.data_append, List.append_assoc]
    rw [this]
    exact startswith_append s ("/" ++ b)

/-- The path-resolution half of the confinement invariant: whatever the
input, `_safe_path` returns a string that extends the sandbox root as
long as the current directory does. -/
theorem safe_path_confined (st : Exec.ExecState) (path : String)
    (h : PyStr.startswith st.current_dir st.sandbox_dir = true) :
    PyStr.startswith (Exec.safe_path st path) st.sandbox_dir = true := by
  unfold Exec.safe_path
  split
  · exact h
  · split
    · dsimp only
      split
      · next hp => exact hp
      · exact startswith_refl _
    · dsimp only
      generalize (if PyStr.startswith path "/" = true then PyStr.lstripSlash path else path) = path1
      split
      · exact join2_startswith _ _ (basename_not_slash _)
      · next hns =>
        simpa using hns

theorem cursorOK_refl (st : Exec.ExecState) : cursorOK st st := ⟨rfl, rfl, id⟩

theorem cursorOK_fs (st : Exec.ExecState) (fs' : Exec.FS) :
    cursorOK st { st with fs := fs' } := ⟨rfl, rfl, id⟩

theorem cursorOK_trans {s t u : Exec.ExecState} (h1 : cursorOK s t) (h2 : cursorOK t u) :
    cursorOK s u := by
  obtain ⟨a1, b1, c1⟩ := h1
  obtain ⟨a2, b2, c2⟩ := h2
  exact ⟨a2.trans a1, b2.trans b1, fun h => c2 (c1 h)⟩

theorem handle_cd_cursor (st : Exec.ExecState) (args : List String) :
    cursorOK st (Exec.handle_cd st args).2 := by
  unfold Exec.handle_cd
  cases args with
  | nil => exact ⟨rfl, rfl, fun _ => startswith_refl _⟩
  | cons a rest =>
    dsimp only
    split
    · exact cursorOK_refl st
    · split
      · exact cursorOK_refl st
      · exact ⟨rfl, rfl, fun h => safe_path_confined st a h⟩

theorem mkdirLoop_cursor (l : List String) :
    ∀ st, cursorOK st (Exec.mkdirLoop st l).2 := by
  induction l with
  | nil => intro st; exact cursorOK_refl st
  | cons d rest ih =>
    intro st
    unfold Exec.mkdirLoop
    cases h : Exec.makedirs st.fs (Exec.safe_path st d) with
    | ok fs' =>
      simp only [h]
      exact cursorOK_trans (cursorOK_fs st fs') (ih _)
    | error e => simp only [h]; exact cursorOK_refl st

theorem rmLoop_cursor (recursive force : Bool) (l : List String) :
    ∀ st, cursorOK st (Exec.rmLoop recursive force st l).2 := by
  induction l with
  | nil => intro st; exact cursorOK_refl st
  | cons f rest ih =>
    intro st
    unfold Exec.rmLoop
    dsimp only
    split
    · split
      · exact cursorOK_refl st
      · exact ih st
    · split
      · split
        · exact cursorOK_trans (cursorOK_fs st _) (ih _)
        · exact cursorOK_refl st
      · exact cursorOK_trans (cursorOK_fs st _) (ih _)

theorem touchLoop_cursor (l : List String) :
    ∀ st, cursorOK st (Exec.touchLoop st l).2 := by
  induction l with
  | nil => intro st; exact cursorOK_refl st
  | cons f rest ih =>
    intro st
    unfold Exec.touchLoop
    dsimp only
    split
    · exact ih st
    · split
      · exact cursorOK_trans (cursorOK_fs st _) (ih _)
      · split
        · exact cursorOK_refl st
        · exact cursorOK_refl st

theorem handle_mkdir_cursor (st : Exec.ExecState) (args : List String) :
    cursorOK st (Exec.handle_mkdir st args).2 := by
  unfold Exec.handle_mkdir
  split
  · exact cursorOK_refl st
  · exact mkdirLoop_cursor args st

theorem handle_rm_cursor (st : Exec.ExecState) (args : List String) :
    cursorOK st (Exec.handle_rm st args).2 := by
  unfold Exec.handle_rm
  split
  · exact cursorOK_refl st
  · exact rmLoop_cursor _ _ _ st

theorem handle_touch_cursor (st : Exec.ExecState) (args : List String) :
    cursorOK st (Exec.handle_touch st args).2 := by
  unfold Exec.handle_touch
  split
  · exact cursorOK_refl st
  · exact touchLoop_cursor args st

theorem handle_cp_cursor (st : Exec.ExecState) (args : List String) :
    cursorOK st (Exec.handle_cp st args).2 := by
  unfold Exec.handle_cp
  match args with
  | [] => exact cursorOK_refl st
  | [a0] => exact cursorOK_refl st
  | a0 :: a1 :: t =>
    dsimp only
    repeat' split
    all_goals first
      | exact cursorOK_refl st
      | exact cursorOK_fs st _

theorem handle_mv_cursor (st : Exec.ExecState) (args : List String) :
    cursorOK st (Exec.handle_mv st args).2 := by
  unfold Exec.handle_mv
  match args with
  | [] => exact cursorOK_refl st
  | [a0] => exact cursorOK_refl st
  | a0 :: a1 :: t =>
    dsimp only
    repeat' split
    all_goals first
      | exact cursorOK_refl st
      | exact cursorOK_fs st _

theorem cursorOK_of_eq {st st' : Exec.ExecState} (h : st' = st) : cursorOK st st' :=
  h ▸ cursorOK_refl st

theorem handle_ls_snd (st : Exec.ExecState) (args : List String) :
    (Exec.handle_ls st args).2 = st := by
  unfold Exec.handle_ls; dsimp only; repeat' split
  all_goals rfl

theorem handle_pwd_snd (st : Exec.ExecState) (args : List String) :
    (Exec.handle_pwd st args).2 = st := rfl

theorem handle_cat_snd (st : Exec.ExecState) (args : List String) :
    (Exec.handle_cat st args).2 = st := by
  unfold Exec.handle_cat; repeat' split
  all_goals rfl

theorem handle_head_snd (st : Exec.ExecState) (args : List String) :
    (Exec.handle_head st args).2 = st := by
  unfold Exec.handle_head; dsimp only; repeat' split
  all_goals rfl

theorem handle_tail_snd (st : Exec.ExecState) (args : List String) :
    (Exec.handle_tail st args).2 = st := by
  unfold Exec.handle_tail; dsimp only; repeat' split
  all_goals rfl

theorem handle_find_snd (st : Exec.ExecState) (args : List String) :
    (Exec.handle_find st args).2 = st := by
  unfold Exec.handle_find; dsimp only; repeat' split
  all_goals rfl

theorem handle_tree_snd (st : Exec.ExecState) (args : List String) :
    (Exec.handle_tree st args).2 = st := by
  unfold Exec.handle_tree; dsimp only; repeat' split
  all_goals rfl

theorem handle_stat_snd (st : Exec.ExecState) (args : List String) :
    (Exec.handle_stat st args).2 = st := by
  unfold Exec.handle_stat; dsimp only; repeat' split
  all_goals rfl

theorem handle_echo_snd (st : Exec.ExecState) (args : List String) :
    (Exec.handle_echo st args).2 = st := rfl

theorem handle_grep_snd (st : Exec.ExecState) (args : List String) :
    (Exec.handle_grep st args).2 = st := by
  unfold Exec.handle_grep; dsimp only; repeat' split
  all_goals rfl

theorem handle_wc_snd (st : Exec.ExecState) (args : List String) :
    (Exec.handle_wc st args).2 = st := by
  unfold Exec.handle_wc; dsimp only; repeat' split
  all_goals rfl

theorem handle_sort_snd (st : Exec.ExecState) (args : List String) :
    (Exec.handle_sort st args).2 = st := by
  unfold Exec.handle_sort; dsimp only; repeat' split
  all_goals rfl

theorem handle_disk_snd (st : Exec.ExecState) (args : List String) :
    (Exec.handle_disk st args).2 = st := by
  unfold Exec.handle_disk; dsimp only; repeat' split
  all_goals rfl

theorem runHandler_cursor (st : Exec.ExecState) (name : String) (args : List String) :
    cursorOK st (Exec.runHandler st name args).2 := by
  unfold Exec.runHandler
  repeat' split
  all_goals first
    | exact handle_cd_cursor st args
    | exact handle_mkdir_cursor st args
    | exact handle_rm_cursor st args
    | exact handle_touch_cursor st args
    | exact handle_cp_cursor st args
    | exact handle_mv_cursor st args
    | (show cursorOK st (Exec.handle_rmdir st args).2
       unfold Exec.handle_rmdir
       exact handle_rm_cursor st _)
    | exact cursorOK_of_eq (handle_ls_snd st args)
    | exact cursorOK_of_eq (handle_pwd_snd st args)
    | exact cursorOK_of_eq (handle_cat_snd st args)
    | exact cursorOK_of_eq (handle_head_snd st args)
    | exact cursorOK_of_eq (handle_tail_snd st args)
    | exact cursorOK_of_eq (handle_find_snd st args)
    | exact cursorOK_of_eq (handle_tree_snd st args)
    | exact cursorOK_of_eq (handle_stat_snd st args)
    | exact cursorOK_of_eq (handle_echo_snd st args)
    | exact cursorOK_of_eq (handle_grep_snd st args)
    | exact cursorOK_of_eq (handle_wc_snd st args)
    | exact cursorOK_of_eq (handle_sort_snd st args)
    | exact cursorOK_of_eq (handle_disk_snd st args)
    | exact cursorOK_refl st

theorem multiLoop_cursor (segs : List String) :
    ∀ st outs, cursorOK st (Exec.multiLoop st outs segs).2 := by
  induction segs with
  | nil => intro st outs; exact cursorOK_refl st
  | cons cmd rest ih =>
    intro st outs
    unfold Exec.multiLoop
    dsimp only
    split
    · exact ih st outs
    · split
      · exact ih st outs
      · split
        · split
          · exact runHandler_cursor st _ _
          · split
            · exact cursorOK_trans (runHandler_cursor st _ _) (ih _ _)
            · exact cursorOK_trans (runHandler_cursor st _ _) (ih _ _)
        · exact cursorOK_refl st

theorem execute_cursor (st : Exec.ExecState) (command : String) (args : List String)
    (kind : String) : cursorOK st (Exec.execute st command args kind).2 := by
  unfold Exec.execute Exec.execute_multi_command
  repeat' split
  all_goals first
    | exact cursorOK_refl st
    | exact multiLoop_cursor _ st []
    | exact runHandler_cursor st _ _
    | (dsimp only
       split
       · exact multiLoop_cursor _ st []
       · first
          | exact runHandler_cursor st _ _
          | exact cursorOK_refl st)

/-- C1: Path confinement invariant — for every input string given to the
path-resolution helper `_safe_path` (including adversarial traversal
sequences and absolute paths), assuming the current directory is a path
prefixed by the sandbox root, the returned path is always prefixed by the
sandbox root; and every operation of `execute` (in particular `cd`, the
only mutator of the cursor) leaves the sandbox root unchanged and
preserves the invariant that `current_dir` is prefixed by it. -/
theorem claim_C1_path_confinement :
    (∀ (st : Exec.ExecState) (path : String),
      PyStr.startswith st.current_dir st.sandbox_dir = true →
      PyStr.startswith (Exec.safe_path st path) st.sandbox_dir = true) ∧
    (∀ (st : Exec.ExecState) (command : String) (args : List String) (kind : String),
      PyStr.startswith st.current_dir st.sandbox_dir = true →
      (Exec.execute st command args kind).2.sandbox_dir = st.sandbox_dir ∧
      PyStr.startswith (Exec.execute st command args kind).2.current_dir
        (Exec.execute st command args kind).2.sandbox_dir = true) := by
  constructor
  · exact fun st path h => safe_path_confined st path h
  · intro st command args kind h
    obtain ⟨_, hs, hc⟩ := execute_cursor st command args kind
    exact ⟨hs, hc h⟩

theorem claim_C1_path_confinement_witness :
    (PyStr.startswith execSt0.current_dir execSt0.sandbox_dir = true ∧
     PyStr.startswith (Exec.safe_path execSt0 "../../../../etc/passwd")
       execSt0.sandbox_dir = true ∧
     PyStr.startswith (Exec.safe_path execSt0 "/etc/passwd") execSt0.sandbox_dir = true) ∧
    PyStr.startswith (Exec.execute execSt0 "cd" [".."] "terminal_command").2.current_dir
      (Exec.execute execSt0 "cd" [".."] "terminal_command").2.sandbox_dir = true :=
  ⟨⟨by decide,
    claim_C1_path_confinement.1 execSt0 "../../../../etc/passwd" (by decide),
    claim_C1_path_confinement.1 execSt0 "/etc/passwd" (by decide)⟩,
   (claim_C1_path_confinement.2 execSt0 "cd" [".."] "terminal_command" (by decide)).2⟩

/-! ### Failure shapes (claim C9) -/

theorem str_append_ne_left (a b : String) (h : a ≠ "") : a ++ b ≠ "" := by
  intro hab
  apply h
  have hd : (a ++ b).data = [] := by rw [hab]
  rw [String.data_append] at hd
  exact String.ext (List.append_eq_nil.mp hd).1

theorem failShape_fails {m : String} (h : m ≠ "") : failShape (Exec.fails m) :=
  fun _ => ⟨rfl, m, rfl, h⟩

theorem failShape_oks (s : String) : failShape (Exec.oks s) := by
  intro h
  simp [Exec.oks] at h

theorem errShape_of_failShape {r : Exec.ExecResult} (h : failShape r) : errShape r :=
  fun hs => (h hs).2

theorem makedirs_ne {fs : Exec.FS} {p e : String} (h : Exec.makedirs fs p = .error e) :
    e ≠ "" := by
  unfold Exec.makedirs at h
  dsimp only at h
  split at h
  · cases h
    repeat' apply str_append_ne_left
    decide
  · cases h

theorem mkdirLoop_shape (l : List String) : ∀ st, failShape (Exec.mkdirLoop st l).1 := by
  induction l with
  | nil => intro st; exact failShape_oks _
  | cons d rest ih =>
    intro st
    unfold Exec.mkdirLoop
    cases h : Exec.makedirs st.fs (Exec.safe_path st d) with
    | ok fs' => simp only [h]; exact ih _
    | error e => simp only [h]; exact failShape_fails (makedirs_ne h)

theorem rmLoop_shape (recursive force : Bool) (l : List String) :
    ∀ st, failShape (Exec.rmLoop recursive force st l).1 := by
  induction l with
  | nil => intro st; exact failShape_oks _
  | cons f rest ih =>
    intro st
    unfold Exec.rmLoop
    dsimp only
    repeat' split
    all_goals first
      | exact ih _
      | (apply failShape_fails
         repeat' apply str_append_ne_left
         decide)

theorem touchLoop_shape (l : List String) : ∀ st, failShape (Exec.touchLoop st l).1 := by
  induction l with
  | nil => intro st; exact failShape_oks _
  | cons f rest ih =>
    intro st
    unfold Exec.touchLoop
    dsimp only
    repeat' split
    all_goals first
      | exact ih _
      | (apply failShape_fails
         repeat' apply str_append_ne_left
         decide)

theorem catLoop_shape (st : Exec.ExecState) (l : List String) :
    ∀ outs, failShape (Exec.catLoop st outs l) := by
  induction l with
  | nil => intro outs; exact failShape_oks _
  | cons f rest ih =>
    intro outs
    unfold Exec.catLoop
    dsimp only
    repeat' split
    all_goals first
      | exact ih _
      | (apply failShape_fails
         repeat' apply str_append_ne_left
         decide)

theorem sortRead_err (st : Exec.ExecState) (l : List String) :
    ∀ ls e, Exec.sortRead st l ls = .error e → failShape e := by
  induction l with
  | nil => intro ls e h; simp [Exec.sortRead] at h
  | cons fp rest ih =>
    intro ls e h
    unfold Exec.sortRead at h
    dsimp only at h
    split at h
    · cases h
      apply failShape_fails
      repeat' apply str_append_ne_left
      decide
    · split at h
      · cases h
        apply failShape_fails
        repeat' apply str_append_ne_left
        decide
      · cases h
        apply failShape_fails
        repeat' apply str_append_ne_left
        decide
      · exact ih _ _ h

theorem handle_ls_shape (st : Exec.ExecState) (args : List String) :
    failShape (Exec.handle_ls st args).1 := by
  unfold Exec.handle_ls
  dsimp only
  repeat' split
  all_goals first
    | exact failShape_oks _
    | (apply failShape_fails
       repeat' apply str_append_ne_left
       decide)

theorem handle_cd_shape (st : Exec.ExecState) (args : List String) :
    failShape (Exec.handle_cd st args).1 := by
  unfold Exec.handle_cd
  cases args with
  | nil => exact failShape_oks _
  | cons a rest =>
    dsimp only
    repeat' split
    all_goals first
      | exact failShape_oks _
      | (apply failShape_fails
         repeat' apply str_append_ne_left
         decide)

theorem handle_mkdir_shape (st : Exec.ExecState) (args : List String) :
    failShape (Exec.handle_mkdir st args).1 := by
  unfold Exec.handle_mkdir
  split
  · apply failShape_fails; decide
  · exact mkdirLoop_shape args st

theorem handle_rm_shape (st : Exec.ExecState) (args : List String) :
    failShape (Exec.handle_rm st args).1 := by
  unfold Exec.handle_rm
  split
  · apply failShape_fails; decide
  · exact rmLoop_shape _ _ _ st

theorem handle_touch_shape (st : Exec.ExecState) (args : List String) :
    failShape (Exec.handle_touch st args).1 := by
  unfold Exec.handle_touch
  split
  · apply failShape_fails; decide
  · exact touchLoop_shape args st

theorem handle_cat_shape (st : Exec.ExecState) (args : List String) :
    failShape (Exec.handle_cat st args).1 := by
  unfold Exec.handle_cat
  split
  · apply failShape_fails; decide
  · exact catLoop_shape st args []

theorem handle_cp_shape (st : Exec.ExecState) (args : List String) :
    failShape (Exec.handle_cp st args).1 := by
  unfold Exec.handle_cp
  match args with
  | [] => apply failShape_fails; decide
  | [a0] => apply failShape_fails; decide
  | a0 :: a1 :: t =>
    dsimp only
    repeat' split
    all_goals first
      | exact failShape_oks _
      | (apply failShape_fails
         repeat' apply str_append_ne_left
         decide)

theorem handle_mv_shape (st : Exec.ExecState) (args : List String) :
    failShape (Exec.handle_mv st args).1 := by
  unfold Exec.handle_mv
  match args with
  | [] => apply failShape_fails; decide
  | [a0] => apply failShape_fails; decide
  | a0 :: a1 :: t =>
    dsimp only
    repeat' split
    all_goals first
      | exact failShape_oks _
      | (apply failShape_fails
         repeat' apply str_append_ne_left
         decide)

theorem handle_head_shape (st : Exec.ExecState) (args : List String) :
    failShape (Exec.handle_head st args).1 := by
  unfold Exec.handle_head
  dsimp only
  repeat' split
  all_goals first
    | exact failShape_oks _
    | (apply failShape_fails
       repeat' apply str_append_ne_left
       decide)

theorem handle_tail_shape (st : Exec.ExecState) (args : List String) :
    failShape (Exec.handle_tail st args).1 := by
  unfold Exec.handle_tail
  dsimp only
  repeat' split
  all_goals first
    | exact failShape_oks _
    | (apply failShape_fails
       repeat' apply str_append_ne_left
       decide)

theorem handle_find_shape (st : Exec.ExecState) (args : List String) :
    failShape (Exec.handle_find st args).1 := by
  unfold Exec.handle_find
  dsimp only
  repeat' split
  all_goals exact failShape_oks _

theorem handle_tree_shape (st : Exec.ExecState) (args : List String) :
    failShape (Exec.handle_tree st args).1 := by
  unfold Exec.handle_tree
  dsimp only
  repeat' split
  all_goals first
    | exact failShape_oks _
    | (apply failShape_fails
       repeat' apply str_append_ne_left
       decide)

theorem handle_stat_shape (st : Exec.ExecState) (args : List String) :
    failShape (Exec.handle_stat st args).1 := by
  unfold Exec.handle_stat
  dsimp only
  repeat' split
  all_goals first
    | exact failShape_oks _
    | (apply failShape_fails
       repeat' apply str_append_ne_left
       decide)

theorem handle_grep_shape (st : Exec.ExecState) (args : List String) :
    failShape (Exec.handle_grep st args).1 := by
  unfold Exec.handle_grep
  dsimp only
  repeat' split
  all_goals first
    | exact failShape_oks _
    | (apply failShape_fails; decide)

theorem handle_wc_shape (st : Exec.ExecState) (args : List String) :
    failShape (Exec.handle_wc st args).1 := by
  unfold Exec.handle_wc
  dsimp only
  repeat' split
  all_goals first
    | exact failShape_oks _
    | (apply failShape_fails; decide)

theorem handle_sort_shape (st : Exec.ExecState) (args : List String) :
    failShape (Exec.handle_sort st args).1 := by
  unfold Exec.handle_sort
  dsimp only
  split
  · apply failShape_fails; decide
  · split
    · apply failShape_fails; decide
    · split
      · next e heq =>
        exact sortRead_err st _ _ _ heq
      · dsimp only
        repeat' split
        all_goals exact failShape_oks _

theorem handle_disk_shape (st : Exec.ExecState) (args : List String) :
    failShape (Exec.handle_disk st args).1 := by
  unfold Exec.handle_disk
  dsimp only
  repeat' split
  all_goals first
    | exact failShape_oks _
    | (apply failShape_fails
       repeat' apply str_append_ne_left
       decide)

theorem runHandler_shape (st : Exec.ExecState) (name : String) (args : List String) :
    failShape (Exec.runHandler st name args).1 := by
  unfold Exec.runHandler
  repeat' split
  all_goals first
    | exact handle_ls_shape st args
    | exact handle_cd_shape st args
    | exact handle_mkdir_shape st args
    | exact handle_rm_shape st args
    | exact handle_touch_shape st args
    | exact handle_cat_shape st args
    | exact handle_cp_shape st args
    | exact handle_mv_shape st args
    | exact handle_head_shape st args
    | exact handle_tail_shape st args
    | exact handle_find_shape st args
    | exact handle_tree_shape st args
    | exact handle_stat_shape st args
    | exact handle_grep_shape st args
    | exact handle_wc_shape st args
    | exact handle_sort_shape st args
    | exact handle_disk_shape st args
    | (show failShape (Exec.handle_rmdir st args).1
       unfold Exec.handle_rmdir
       exact handle_rm_shape st _)
    | exact failShape_oks _
    | (apply failShape_fails; decide)

theorem multiLoop_err (segs : List String) :
    ∀ st outs, errShape (Exec.multiLoop st outs segs).1 := by
  induction segs with
  | nil =>
    intro st outs hs
    simp [Exec.multiLoop] at hs
  | cons cmd rest ih =>
    intro st outs
    unfold Exec.multiLoop
    dsimp only
    split
    · exact ih st outs
    · split
      · exact ih st outs
      · split
        · split
          · next hfail =>
            intro _
            obtain ⟨_, m, hm, hne⟩ := runHandler_shape st _ _ hfail
            exact ⟨m, hm, hne⟩
          · split
            · exact ih _ _
            · exact ih _ _
        · intro _
          refine ⟨_, rfl, ?_⟩
          apply str_append_ne_left
          decide

theorem execute_errShape (st : Exec.ExecState) (command : String) (args : List String)
    (kind : String) : errShape (Exec.execute st command args kind).1 := by
  unfold Exec.execute Exec.execute_multi_command
  repeat' split
  all_goals first
    | exact errShape_of_failShape (failShape_oks _)
    | exact multiLoop_err _ _ _
    | exact errShape_of_failShape (runHandler_shape st _ _)
    | (intro _
       refine ⟨_, rfl, ?_⟩
       repeat' apply str_append_ne_left
       decide)
    | (dsimp only
       split
       · exact multiLoop_err _ _ _
       · first
          | exact errShape_of_failShape (runHandler_shape st _ _)
          | (intro _
             refine ⟨_, rfl, ?_⟩
             repeat' apply str_append_ne_left
             decide))

theorem execute_failShape_nonmulti (st : Exec.ExecState) (command : String)
    (args : List String) (kind : String) (hM : ¬ multiPath command args kind) :
    failShape (Exec.execute st command args kind).1 := by
  unfold Exec.execute
  by_cases hk1 : kind = "empty"
  · rw [if_pos hk1]; exact failShape_oks _
  · rw [if_neg hk1]
    by_cases hk2 : kind = "parse_error"
    · rw [if_pos hk2]; apply failShape_fails; decide
    · rw [if_neg hk2]
      by_cases hk3 : kind = "ai_generated"
      · rw [if_pos hk3]
        have hA : ¬ (command = "multi_command" ∧ args ≠ []) :=
          fun h => hM ⟨hk3, Or.inl h⟩
        have hB : ¬ (PyStr.containsSub
            (command ++ (if args ≠ [] then " " ++ String.intercalate " " args else ""))
            "&&" = true) :=
          fun h => hM ⟨hk3, Or.inr h⟩
        rw [if_neg hA]
        dsimp only
        rw [if_neg hB]
        split
        · exact runHandler_shape st _ _
        · apply failShape_fails
          repeat' apply str_append_ne_left
          decide
      · rw [if_neg hk3]
        split
        · exact runHandler_shape st _ _
        · apply failShape_fails
          repeat' apply str_append_ne_left
          decide

/-- C9 (amended): `Executor.execute` is a total function — it returns a
structured `ExecResult` for every command name, argument list and command
kind — and whenever the result has `success = false` its error is a
non-empty message; the output of a failing result is the empty string on
every path except the multi-command chain, which carries the partial
accumulated output of the already-executed segments. -/
theorem claim_C9_handler_failure_shape :
    ∀ (st : Exec.ExecState) (command : String) (args : List String) (kind : String),
      ((Exec.execute st command args kind).1.success = false →
        ∃ m, (Exec.execute st command args kind).1.error = some m ∧ m ≠ "") ∧
      (¬ multiPath command args kind →
        (Exec.execute st command args kind).1.success = false →
        (Exec.execute st command args kind).1.output = "") :=
  fun st c a k =>
    ⟨execute_errShape st c a k,
     fun hM hs => (execute_failShape_nonmulti st c a k hM hs).1⟩

theorem claim_C9_handler_failure_shape_witness :
    (∃ m, (Exec.execute execSt0 "rm" ["nope"] "terminal_command").1.error = some m ∧ m ≠ "") ∧
    (Exec.execute execSt0 "rm" ["nope"] "terminal_command").1.output = "" :=
  ⟨(claim_C9_handler_failure_shape execSt0 "rm" ["nope"] "terminal_command").1 (by decide),
   (claim_C9_handler_failure_shape execSt0 "rm" ["nope"] "terminal_command").2
     (by decide) (by decide)⟩

/-- C9 counterexample: on the multi-command path a failing chain's result
carries the partial accumulated output (`"hi\n"`), not the empty string
the claim requires of every failure. -/
theorem claim_C9_counterexample :
    (Exec.execute execSt0 "multi_command" ["echo hi && rm nope"] "ai_generated").1.success
        = false ∧
    (Exec.execute execSt0 "multi_command" ["echo hi && rm nope"] "ai_generated").1.output
        = "hi\n" ∧
    (Exec.execute execSt0 "multi_command" ["echo hi && rm nope"] "ai_generated").1.output
        ≠ "" := by
  decide

/-! ### Multi-command fail-fast (claim C2) -/

/-- C2 counterexample: in the claim's own chain the second segment is
`rm -rf missing_dir`, and `-rf` contains `f`, which sets the force flag;
`_handle_rm` then skips the missing target and succeeds, so the whole
chain succeeds and `a/marker` IS created — the claim's predicted failure
and absence of `a/marker` are both wrong for this chain. -/
theorem claim_C2_counterexample :
    (Exec.execute execSt0 "multi_command"
      ["mkdir a && rm -rf missing_dir && touch a/marker"] "ai_generated").1.success = true ∧
    Exec.fsFind (Exec.execute execSt0 "multi_command"
        ["mkdir a && rm -rf missing_dir && touch a/marker"] "ai_generated").2.fs
      ["sandbox", "a", "marker"] = some (Exec.Entry.file "") := by
  decide

/-- C2 (amended): the fail-fast behaviour the claim describes holds for
the chain without the force flag, `mkdir a && rm -r missing_dir && touch
a/marker`: the first segment succeeds (directory `a` exists afterwards),
the second fails on the missing target, the overall result has
`success = false` carrying the accumulated partial output (here only the
joining newline, as `mkdir` printed nothing) plus that segment's error,
and `a/marker` is never created. -/
theorem claim_C2_fail_fast :
    (Exec.execute execSt0 "multi_command"
      ["mkdir a && rm -r missing_dir && touch a/marker"] "ai_generated").1 =
      { success := false, output := "\n", error := some "File not found: missing_dir" } ∧
    Exec.fsFind (Exec.execute execSt0 "multi_command"
        ["mkdir a && rm -r missing_dir && touch a/marker"] "ai_generated").2.fs
      ["sandbox", "a"] = some Exec.Entry.dir ∧
    Exec.fsFind (Exec.execute execSt0 "multi_command"
        ["mkdir a && rm -r missing_dir && touch a/marker"] "ai_generated").2.fs
      ["sandbox", "a", "marker"] = none := by
  decide

/-! ### Parse-error classification (claim C8) -/

/-- C8 (amended): for every input whose shell-style tokenization fails
and which the natural-language heuristic does not capture, `parse`
returns kind `parse_error` with the tokenization error stored in `error`
and `command` set to the *whitespace-stripped* raw input. -/
theorem claim_C8_parse_error :
    ∀ (input e : String),
      CmdParse.shlex_split (PyStr.strip input) = .error e →
      CmdParse.is_natural_language (PyStr.strip input) = false →
      CmdParse.parse input =
        { ptype := "parse_error", command := PyStr.strip input, args := [],
          original := PyStr.strip input, error := some e } := by
  intro input e he hn
  unfold CmdParse.parse
  have hne : ¬ PyStr.strip input = "" := by
    intro h0
    rw [h0] at he
    simp [CmdParse.shlex_split, CmdParse.shlexGo] at he
  rw [if_neg hne]
  have ht : CmdParse.is_terminal_command (PyStr.strip input) = false := by
    unfold CmdParse.is_terminal_command
    rw [he]
  rw [ht]
  simp only [Bool.false_eq_true, if_false, hn]
  unfold CmdParse.parse_terminal_command
  rw [he]

theorem claim_C8_parse_error_witness :
    CmdParse.shlex_split (PyStr.strip "a \"b") = .error "No closing quotation" ∧
    CmdParse.is_natural_language (PyStr.strip "a \"b") = false ∧
    CmdParse.parse "a \"b" =
      { ptype := "parse_error", command := PyStr.strip "a \"b", args := [],
        original := PyStr.strip "a \"b", error := some "No closing quotation" } :=
  ⟨by decide, by decide,
   claim_C8_parse_error "a \"b" "No closing quotation" (by decide) (by decide)⟩

/-- C8 counterexample: `create a "x` fails tokenization (unmatched
quote) yet `parse` classifies it as natural language because the
natural-language heuristic runs on inputs that are not recognised
terminal commands — so not every tokenization failure yields
`parse_error`.  Also, for ` x "y ` (surrounding whitespace), the
`command` field of the `parse_error` result is the stripped input, not
the raw input. -/
theorem claim_C8_counterexample :
    CmdParse.shlex_split "create a \"x" = .error "No closing quotation" ∧
    (CmdParse.parse "create a \"x").ptype = "natural_language" ∧
    (CmdParse.parse "create a \"x").ptype ≠ "parse_error" ∧
    (CmdParse.parse " x \"y ").ptype = "parse_error" ∧
    (CmdParse.parse " x \"y ").command = "x \"y" ∧
    "x \"y" ≠ " x \"y " := by
  decide

/-! ### Validator state lemmas (claims C3, C4, C5, C6, C10) -/

theorem alookup_aset {α : Type} (l : List (String × α)) (k : String) (v : α) :
    Security.alookup (Security.aset l k v) k = some v := by
  induction l with
  | nil => simp [Security.aset, Security.alookup, List.find?]
  | cons p rest ih =>
    unfold Security.aset
    split
    · next hpk => simp [Security.alookup, List.find?]
    · next hpk =>
      unfold Security.alookup at ih ⊢
      simp only [List.find?]
      rw [show (decide (p.1 = k)) = false from by simpa using hpk]
      exact ih

/-- `validate_input` with a falsy `client_ip`: no block check, no rate
limiting, no suspicion tracking, and the state is returned unchanged. -/
theorem validate_input_no_ip (st : Security.SecState) (input : String)
    (client_ip : Option String) (t : Int) (hip : Security.ipPresent client_ip = false) :
    Security.validate_input st input client_ip t =
      (if input.length > Security.max_command_length then
        ({ valid := false, blocked := false, warnings := [],
           errors := ["Input too long (max 1000 characters)"], sanitized_input := none },
         st)
       else
        ({ valid := (Security.check_dangerous_patterns input = [] ∧
              Security.check_path_traversal input = [] ∧
              Security.check_injection_attempts input = []),
           blocked := false,
           warnings := Security.check_dangerous_patterns input ++
             Security.check_path_traversal input ++ Security.check_injection_attempts input,
           errors :=
             (if Security.check_dangerous_patterns input ≠ [] then
               ["Potentially dangerous command detected"] else []) ++
             (if Security.check_path_traversal input ≠ [] then
               ["Path traversal attempt detected"] else []) ++
             (if Security.check_injection_attempts input ≠ [] then
               ["Code injection attempt detected"] else []),
           sanitized_input := some (Security.sanitize_input input) },
         st)) := by
  unfold Security.validate_input
  simp only [hip, Bool.false_eq_true, false_and, and_false, if_false, ite_false]

/-- C10: when no client IP is supplied (None or the empty string),
`validate_input` performs neither the IP-block check nor the rate-limit
check and records no suspicious activity: the state is returned
unchanged, the result has `blocked = false`, and the errors can never be
the blocked-IP error nor a rate-limit error. -/
theorem claim_C10_anonymous_caller :
    ∀ (st : Security.SecState) (input : String) (client_ip : Option String) (t : Int),
      Security.ipPresent client_ip = false →
      (Security.validate_input st input client_ip t).2 = st ∧
      (Security.validate_input st input client_ip t).1.blocked = false ∧
      "IP address is blocked" ∉ (Security.validate_input st input client_ip t).1.errors ∧
      ∀ e ∈ (Security.validate_input st input client_ip t).1.errors,
        PyStr.startswith e "Rate limit exceeded" = false := by
  intro st input ip t hip
  rw [validate_input_no_ip st input ip t hip]
  by_cases hl : input.length > Security.max_command_length
  · rw [if_pos hl]
    refine ⟨rfl, rfl, ?_, ?_⟩
    · intro hmem
      simp only [List.mem_singleton] at hmem
      exact absurd hmem (by decide)
    · intro e he
      simp only [List.mem_singleton] at he
      subst he
      decide
  · rw [if_neg hl]
    by_cases hd : Security.check_dangerous_patterns input = [] <;>
      by_cases htr : Security.check_path_traversal input = [] <;>
        by_cases hinj : Security.check_injection_attempts input = [] <;>
          refine ⟨rfl, rfl, ?_, ?_⟩ <;>
            simp [hd, htr, hinj] <;> decide

theorem claim_C10_anonymous_caller_witness :
    (Security.validate_input Security.initSec "ls" none 0).2 = Security.initSec ∧
    (Security.validate_input Security.initSec "ls" none 0).1.blocked = false ∧
    "IP address is blocked" ∉ (Security.validate_input Security.initSec "ls" none 0).1.errors ∧
    ∀ e ∈ (Security.validate_input Security.initSec "ls" none 0).1.errors,
      PyStr.startswith e "Rate limit exceeded" = false :=
  claim_C10_anonymous_caller Security.initSec "ls" none 0 (by decide)

/-- C4 (amended): `sanitizedInput` is populated exactly when validation
is not rejected by the IP-block, rate-limit or over-length early
returns; when populated it equals the *whitespace-stripped* input with
NUL bytes stripped, ANSI escape sequences stripped, and non-printable
characters other than tab and newline dropped. -/
theorem claim_C4_sanitization :
    ∀ (st : Security.SecState) (input : String) (client_ip : Option String) (t : Int),
      (Security.validate_input st input client_ip t).1.sanitized_input =
        (if Security.ipPresent client_ip = true ∧
             st.blocked_ips.contains (client_ip.getD "") = true then none
         else if Security.ipPresent client_ip = true ∧
             (Security.check_rate_limit st.rate_limit_storage (client_ip.getD "") t).1.allowed
               = false then none
         else if input.length > Security.max_command_length then none
         else some (Security.sanitize_input input)) := by
  intro st input ip t
  by_cases hp : Security.ipPresent ip = true
  · unfold Security.validate_input
    simp only [hp, true_and, if_true, ite_true]
    by_cases hb : st.blocked_ips.contains (ip.getD "") = true
    · rw [if_pos hb, if_pos hb]
    · rw [if_neg hb, if_neg hb]
      by_cases hr :
          (Security.check_rate_limit st.rate_limit_storage (ip.getD "") t).1.allowed = false
      · rw [if_pos hr, if_pos hr]
      · rw [if_neg hr, if_neg hr]
        split <;> rfl
  · have hip : Security.ipPresent ip = false := by
      cases h : Security.ipPresent ip
      · rfl
      · exact absurd h hp
    rw [validate_input_no_ip st input ip t hip]
    simp only [hip, Bool.false_eq_true, false_and, if_false, ite_false]
    split <;> rfl

set_option maxRecDepth 16384 in
/-- C4 counterexample: an over-length rejection returns no
`sanitizedInput` at all (the claim says the field is always present),
and even when present the value is the *stripped* input — `" ls"`
sanitizes to `"ls"`, not to `" ls"`. -/
theorem claim_C4_counterexample :
    (Security.validate_input Security.initSec longInput none 0).1.sanitized_input = none ∧
    (Security.validate_input Security.initSec " ls" none 0).1.sanitized_input = some "ls" ∧
    some "ls" ≠ some " ls" := by
  decide

theorem track_rate (st : Security.SecState) (ip ty d : String) (t : Int) :
    (Security.track_suspicious_activity st ip ty d t).rate_limit_storage =
      st.rate_limit_storage := by
  unfold Security.track_suspicious_activity
  dsimp only
  split <;> rfl

theorem track_count (st : Security.SecState) (ip ty d : String) (t : Int) :
    ((Security.alookup (Security.track_suspicious_activity st ip ty d t).suspicious_activity
        ip).map (·.count)).getD 0 =
      ((Security.alookup st.suspicious_activity ip).map (·.count)).getD 0 + 1 := by
  unfold Security.track_suspicious_activity
  dsimp only
  split <;>
    (dsimp only
     rw [alookup_aset]
     cases h : Security.alookup st.suspicious_activity ip <;> simp [h])

/-- C5 (amended): `validate_input` short-circuits only among the
IP-block, rate-limit and length checks; the dangerous, path-traversal
and injection screens all run on every non-early-rejected call, each
contributing one error and one suspicion increment when it fires — so
the errors list has one entry *per failing screen* (up to three) and the
suspicion counter grows by the number of failing screens. -/
theorem claim_C5_no_screen_shortcircuit :
    ∀ (st : Security.SecState) (input ip : String) (t : Int),
      ip ≠ "" →
      st.blocked_ips.contains ip = false →
      (Security.check_rate_limit st.rate_limit_storage ip t).1.allowed = true →
      input.length ≤ Security.max_command_length →
      ((Security.validate_input st input (some ip) t).1.errors.length =
          (if Security.check_dangerous_patterns input = [] then 0 else 1) +
          (if Security.check_path_traversal input = [] then 0 else 1) +
          (if Security.check_injection_attempts input = [] then 0 else 1)) ∧
      (((Security.alookup
            (Security.validate_input st input (some ip) t).2.suspicious_activity ip).map
            (·.count)).getD 0 =
        ((Security.alookup st.suspicious_activity ip).map (·.count)).getD 0 +
          ((if Security.check_dangerous_patterns input = [] then 0 else 1) +
           (if Security.check_path_traversal input = [] then 0 else 1) +
           (if Security.check_injection_attempts input = [] then 0 else 1))) := by
  intro st input ip t hip hnb hallow hlen
  have hp : Security.ipPresent (some ip) = true := by simp [Security.ipPresent, hip]
  unfold Security.validate_input
  simp only [hp, Option.getD_some, true_and, if_true, ite_true, hnb, Bool.false_eq_true,
    if_false, ite_false, hallow, Bool.true_eq_false, false_and]
  rw [if_neg (Nat.not_lt.mpr hlen)]
  by_cases hd : Security.check_dangerous_patterns input = [] <;>
    by_cases htr : Security.check_path_traversal input = [] <;>
      by_cases hinj : Security.check_injection_attempts input = [] <;>
        simp [hd, htr, hinj, track_count, track_rate] <;> omega

theorem claim_C5_no_screen_shortcircuit_witness :
    ((Security.validate_input Security.initSec "sudo rm" (some "1.2.3.4") 0).1.errors.length =
      (if Security.check_dangerous_patterns "sudo rm" = [] then 0 else 1) +
      (if Security.check_path_traversal "sudo rm" = [] then 0 else 1) +
      (if Security.check_injection_attempts "sudo rm" = [] then 0 else 1)) ∧
    (((Security.alookup
        (Security.validate_input Security.initSec "sudo rm" (some "1.2.3.4") 0).2.suspicious_activity
        "1.2.3.4").map (·.count)).getD 0 =
      ((Security.alookup Security.initSec.suspicious_activity "1.2.3.4").map (·.count)).getD 0 +
        ((if Security.check_dangerous_patterns "sudo rm" = [] then 0 else 1) +
         (if Security.check_path_traversal "sudo rm" = [] then 0 else 1) +
         (if Security.check_injection_attempts "sudo rm" = [] then 0 else 1))) :=
  claim_C5_no_screen_shortcircuit Security.initSec "sudo rm" "1.2.3.4" 0
    (by decide) (by decide) (by decide) (by decide)

/-- C5 counterexample: `x && rm -rf /` matches both a dangerous pattern
and an injection pattern, so a single call appends *two* errors and
records *two* suspicious activities — refuting "exactly one failed
check" and "at most one increment per call". -/
theorem claim_C5_counterexample :
    (Security.validate_input Security.initSec "x && rm -rf /"
        (some "9.9.9.9") 0).1.errors =
      ["Potentially dangerous command detected", "Code injection attempt detected"] ∧
    (Security.validate_input Security.initSec "x && rm -rf /"
        (some "9.9.9.9") 0).1.errors.length ≠ 1 ∧
    ((Security.alookup (Security.validate_input Security.initSec "x && rm -rf /"
        (some "9.9.9.9") 0).2.suspicious_activity "9.9.9.9").map (·.count)).getD 0 = 2 := by
  decide

theorem check_rate_limit_small (storage : List (String × List Int)) (ip : String) (t : Int)
    (h : ((Security.alookup storage ip).getD []).length < 60) :
    (Security.check_rate_limit storage ip t).1.allowed = true ∧
    ((Security.alookup (Security.check_rate_limit storage ip t).2 ip).getD []).length ≤
      ((Security.alookup storage ip).getD []).length + 1 := by
  unfold Security.check_rate_limit
  dsimp only
  have hpr := List.length_filter_le (fun u => u > t - 3600)
    ((Security.alookup storage ip).getD [])
  have hre := List.length_filter_le (fun u => u > t - 60)
    (((Security.alookup storage ip).getD []).filter (fun u => u > t - 3600))
  rw [if_neg (by simp only [Security.max_requests_per_hour]; omega)]
  rw [if_neg (by simp only [Security.max_requests_per_minute]; omega)]
  refine ⟨rfl, ?_⟩
  rw [alookup_aset]
  simp only [Option.getD_some, List.length_append, List.length_singleton]
  omega

theorem contains_append_one (l : List String) (ip : String) :
    (l ++ [ip]).contains ip = true := by
  induction l with
  | nil => simp
  | cons a rest ih => simp [List.contains_cons, ih]

theorem track_blocked (st : Security.SecState) (ip ty d : String) (t : Int) :
    (Security.track_suspicious_activity st ip ty d t).blocked_ips =
      if ((Security.alookup st.suspicious_activity ip).map (·.count)).getD 0 + 1 ≥ 5 then
        (if st.blocked_ips.contains ip then st.blocked_ips else st.blocked_ips ++ [ip])
      else st.blocked_ips := by
  unfold Security.track_suspicious_activity
  dsimp only
  cases h : Security.alookup st.suspicious_activity ip <;>
    simp [h] <;> split <;> simp_all

/-- `validate_input` on a blocked IP: immediate rejection, state
untouched. -/
theorem blocked_step (st : Security.SecState) (x ip : String) (t : Int)
    (hip : ip ≠ "") (hb : st.blocked_ips.contains ip = true) :
    Security.validate_input st x (some ip) t =
      ({ valid := false, blocked := true, warnings := [],
         errors := ["IP address is blocked"], sanitized_input := none }, st) := by
  have hp : Security.ipPresent (some ip) = true := by simp [Security.ipPresent, hip]
  have hm : ip ∈ st.blocked_ips := by simpa using hb
  unfold Security.validate_input
  simp [hp, hm]

/-- One dangerous-only submission from a present, unblocked,
rate-admitted IP: rejected (not blocked), one suspicion increment. -/
theorem dangerous_step (st : Security.SecState) (ip d : String) (t : Int)
    (hip : ip ≠ "") (hd1 : Security.check_dangerous_patterns d ≠ [])
    (hd2 : Security.check_path_traversal d = [])
    (hd3 : Security.check_injection_attempts d = [])
    (hlen : d.length ≤ Security.max_command_length)
    (hnb : st.blocked_ips.contains ip = false)
    (hallow : (Security.check_rate_limit st.rate_limit_storage ip t).1.allowed = true) :
    Security.validate_input st d (some ip) t =
      ({ valid := false, blocked := false,
         warnings := Security.check_dangerous_patterns d,
         errors := ["Potentially dangerous command detected"],
         sanitized_input := some (Security.sanitize_input d) },
       Security.track_suspicious_activity
         { st with rate_limit_storage :=
             (Security.check_rate_limit st.rate_limit_storage ip t).2 }
         ip "dangerous_command" d t) := by
  have hp : Security.ipPresent (some ip) = true := by simp [Security.ipPresent, hip]
  unfold Security.validate_input
  simp only [hp, Option.getD_some, true_and, hnb, Bool.false_eq_true, if_false, ite_false,
    hallow, Bool.true_eq_false, false_and, if_true, ite_true]
  rw [if_neg (Nat.not_lt.mpr hlen)]
  simp [hd1, hd2, hd3]

theorem dangerous_step_inv (st : Security.SecState) (ip d : String) (t : Int) (c r : Nat)
    (hip : ip ≠ "") (hd1 : Security.check_dangerous_patterns d ≠ [])
    (hd2 : Security.check_path_traversal d = [])
    (hd3 : Security.check_injection_attempts d = [])
    (hlen : d.length ≤ Security.max_command_length)
    (hb : st.blocked_ips.contains ip = false)
    (hc : suspCount st ip = c) (hr : rateLen st ip ≤ r)
    (hr60 : r < 59) (hc5 : c < 4) :
    (Security.validate_input st d (some ip) t).1.valid = false ∧
    (Security.validate_input st d (some ip) t).1.blocked = false ∧
    (Security.validate_input st d (some ip) t).2.blocked_ips.contains ip = false ∧
    suspCount (Security.validate_input st d (some ip) t).2 ip = c + 1 ∧
    rateLen (Security.validate_input st d (some ip) t).2 ip ≤ r + 1 := by
  have hsmall : ((Security.alookup st.rate_limit_storage ip).getD []).length < 60 := by
    unfold rateLen at hr; omega
  have hcr := check_rate_limit_small st.rate_limit_storage ip t hsmall
  rw [dangerous_step st ip d t hip hd1 hd2 hd3 hlen hb hcr.1]
  unfold suspCount at hc
  refine ⟨rfl, rfl, ?_, ?_, ?_⟩
  · rw [track_blocked]
    dsimp only
    rw [if_neg (by rw [hc]; omega)]
    exact hb
  · unfold suspCount
    rw [track_count]
    dsimp only
    rw [hc]
  · unfold rateLen
    rw [track_rate]
    dsimp only
    unfold rateLen at hr
    omega

theorem dangerous_step_block (st : Security.SecState) (ip d : String) (t : Int) (r : Nat)
    (hip : ip ≠ "") (hd1 : Security.check_dangerous_patterns d ≠ [])
    (hd2 : Security.check_path_traversal d = [])
    (hd3 : Security.check_injection_attempts d = [])
    (hlen : d.length ≤ Security.max_command_length)
    (hb : st.blocked_ips.contains ip = false)
    (hc : suspCount st ip = 4) (hr : rateLen st ip ≤ r) (hr60 : r < 59) :
    (Security.validate_input st d (some ip) t).1.valid = false ∧
    (Security.validate_input st d (some ip) t).1.blocked = false ∧
    (Security.validate_input st d (some ip) t).2.blocked_ips.contains ip = true := by
  have hsmall : ((Security.alookup st.rate_limit_storage ip).getD []).length < 60 := by
    unfold rateLen at hr; omega
  have hcr := check_rate_limit_small st.rate_limit_storage ip t hsmall
  rw [dangerous_step st ip d t hip hd1 hd2 hd3 hlen hb hcr.1]
  unfold suspCount at hc
  refine ⟨rfl, rfl, ?_⟩
  rw [track_blocked]
  dsimp only
  rw [if_pos (by rw [hc])]
  rw [if_neg (by rw [hb]; exact Bool.false_ne_true)]
  exact contains_append_one _ _

/-- C3: suspicion auto-block.  For any IP and any input `d` that trips the
dangerous-pattern screen only, each of the first four submissions from a
fresh security state is individually rejected with the IP still
unblocked; the fifth submission is rejected and puts the IP on the
blocked list; and an arbitrary sixth request from that IP — any content
whatsoever — is rejected at the IP-block check with blocked=true, errors
["IP address is blocked"], and the state untouched. -/
theorem claim_C3_suspicion_autoblock (ip d x : String) (t1 t2 t3 t4 t5 t6 : Int)
    (hip : ip ≠ "")
    (hd1 : Security.check_dangerous_patterns d ≠ [])
    (hd2 : Security.check_path_traversal d = [])
    (hd3 : Security.check_injection_attempts d = [])
    (hlen : d.length ≤ Security.max_command_length) :
    let p1 := Security.validate_input Security.initSec d (some ip) t1
    let p2 := Security.validate_input p1.2 d (some ip) t2
    let p3 := Security.validate_input p2.2 d (some ip) t3
    let p4 := Security.validate_input p3.2 d (some ip) t4
    let p5 := Security.validate_input p4.2 d (some ip) t5
    let p6 := Security.validate_input p5.2 x (some ip) t6
    (p1.1.valid = false ∧ p1.1.blocked = false ∧ p1.2.blocked_ips.contains ip = false) ∧
    (p2.1.valid = false ∧ p2.1.blocked = false ∧ p2.2.blocked_ips.contains ip = false) ∧
    (p3.1.valid = false ∧ p3.1.blocked = false ∧ p3.2.blocked_ips.contains ip = false) ∧
    (p4.1.valid = false ∧ p4.1.blocked = false ∧ p4.2.blocked_ips.contains ip = false) ∧
    (p5.1.valid = false ∧ p5.1.blocked = false ∧ p5.2.blocked_ips.contains ip = true) ∧
    (p6.1.valid = false ∧ p6.1.blocked = true ∧
      p6.1.errors = ["IP address is blocked"] ∧ p6.2 = p5.2) := by
  dsimp only
  have h1 := dangerous_step_inv Security.initSec ip d t1 0 0 hip hd1 hd2 hd3 hlen
    rfl rfl (Nat.le_of_eq rfl) (by omega) (by omega)
  have h2 := dangerous_step_inv (Security.validate_input Security.initSec d (some ip) t1).2
    ip d t2 1 1 hip hd1 hd2 hd3 hlen h1.2.2.1 h1.2.2.2.1 h1.2.2.2.2 (by omega) (by omega)
  have h3 := dangerous_step_inv
    (Security.validate_input (Security.validate_input Security.initSec d (some ip) t1).2
      d (some ip) t2).2
    ip d t3 2 2 hip hd1 hd2 hd3 hlen h2.2.2.1 h2.2.2.2.1 h2.2.2.2.2 (by omega) (by omega)
  have h4 := dangerous_step_inv
    (Security.validate_input
      (Security.validate_input (Security.validate_input Security.initSec d (some ip) t1).2
        d (some ip) t2).2 d (some ip) t3).2
    ip d t4 3 3 hip hd1 hd2 hd3 hlen h3.2.2.1 h3.2.2.2.1 h3.2.2.2.2 (by omega) (by omega)
  have h5 := dangerous_step_block
    (Security.validate_input
      (Security.validate_input
        (Security.validate_input (Security.validate_input Security.initSec d (some ip) t1).2
          d (some ip) t2).2 d (some ip) t3).2 d (some ip) t4).2
    ip d t5 4 hip hd1 hd2 hd3 hlen h4.2.2.1 h4.2.2.2.1 h4.2.2.2.2 (by omega)
  have e6 := blocked_step
    (Security.validate_input
      (Security.validate_input
        (Security.validate_input
          (Security.validate_input (Security.validate_input Security.initSec d (some ip) t1).2
            d (some ip) t2).2 d (some ip) t3).2 d (some ip) t4).2 d (some ip) t5).2
    x ip t6 hip h5.2.2
  refine ⟨⟨h1.1, h1.2.1, h1.2.2.1⟩, ⟨h2.1, h2.2.1, h2.2.2.1⟩, ⟨h3.1, h3.2.1, h3.2.2.1⟩,
    ⟨h4.1, h4.2.1, h4.2.2.1⟩, h5, ?_, ?_, ?_, ?_⟩ <;> rw [e6]

theorem claim_C3_suspicion_autoblock_witness :
    ((("1.2.3.4" : String) ≠ "") ∧
     Security.check_dangerous_patterns "sudo rm" ≠ [] ∧
     Security.check_path_traversal "sudo rm" = [] ∧
     Security.check_injection_attempts "sudo rm" = [] ∧
     String.length "sudo rm" ≤ Security.max_command_length) ∧
    (let p1 := Security.validate_input Security.initSec "sudo rm" (some "1.2.3.4") 0
     let p2 := Security.validate_input p1.2 "sudo rm" (some "1.2.3.4") 0
     let p3 := Security.validate_input p2.2 "sudo rm" (some "1.2.3.4") 0
     let p4 := Security.validate_input p3.2 "sudo rm" (some "1.2.3.4") 0
     let p5 := Security.validate_input p4.2 "sudo rm" (some "1.2.3.4") 0
     let p6 := Security.validate_input p5.2 "ls" (some "1.2.3.4") 0
     (p1.1.valid = false ∧ p1.1.blocked = false ∧
        p1.2.blocked_ips.contains "1.2.3.4" = false) ∧
     (p2.1.valid = false ∧ p2.1.blocked = false ∧
        p2.2.blocked_ips.contains "1.2.3.4" = false) ∧
     (p3.1.valid = false ∧ p3.1.blocked = false ∧
        p3.2.blocked_ips.contains "1.2.3.4" = false) ∧
     (p4.1.valid = false ∧ p4.1.blocked = false ∧
        p4.2.blocked_ips.contains "1.2.3.4" = false) ∧
     (p5.1.valid = false ∧ p5.1.blocked = false ∧
        p5.2.blocked_ips.contains "1.2.3.4" = true) ∧
     (p6.1.valid = false ∧ p6.1.blocked = true ∧
        p6.1.errors = ["IP address is blocked"] ∧ p6.2 = p5.2)) :=
  ⟨⟨by decide, by decide, by decide, by decide, by decide⟩,
   claim_C3_suspicion_autoblock "1.2.3.4" "sudo rm" "ls" 0 0 0 0 0 0
     (by decide) (by decide) (by decide) (by decide) (by decide)⟩

theorem check_rate_limit_benign (storage : List (String × List Int)) (ip : String) (t : Int)
    (h : ((Security.alookup storage ip).getD []).length < 60)
    (hkeep : ∀ u ∈ (Security.alookup storage ip).getD [], u > t - 3600) :
    Security.check_rate_limit storage ip t =
      ({ allowed := true, message := "" },
       Security.aset storage ip (((Security.alookup storage ip).getD []) ++ [t])) := by
  unfold Security.check_rate_limit
  dsimp only
  have hpr : ((Security.alookup storage ip).getD []).filter (fun u => u > t - 3600) =
      (Security.alookup storage ip).getD [] :=
    List.filter_eq_self.mpr (fun a ha => by simpa using hkeep a ha)
  rw [hpr]
  have hre := List.length_filter_le (fun u => u > t - 60) ((Security.alookup storage ip).getD [])
  rw [if_neg (by simp only [Security.max_requests_per_hour]; omega)]
  rw [if_neg (by simp only [Security.max_requests_per_minute]; omega)]

/-- `validate_input` on a clean input from a present, unblocked,
rate-admitted IP: accepted, only the rate-limit storage changes. -/
theorem benign_step (st : Security.SecState) (x ip : String) (t : Int)
    (hip : ip ≠ "")
    (hx1 : Security.check_dangerous_patterns x = [])
    (hx2 : Security.check_path_traversal x = [])
    (hx3 : Security.check_injection_attempts x = [])
    (hlen : x.length ≤ Security.max_command_length)
    (hnb : st.blocked_ips.contains ip = false)
    (hallow : (Security.check_rate_limit st.rate_limit_storage ip t).1.allowed = true) :
    Security.validate_input st x (some ip) t =
      ({ valid := true, blocked := false, warnings := [], errors := [],
         sanitized_input := some (Security.sanitize_input x) },
       { st with rate_limit_storage :=
           (Security.check_rate_limit st.rate_limit_storage ip t).2 }) := by
  have hp : Security.ipPresent (some ip) = true := by simp [Security.ipPresent, hip]
  unfold Security.validate_input
  simp only [hp, Option.getD_some, true_and, hnb, Bool.false_eq_true, if_false, ite_false,
    hallow, Bool.true_eq_false, false_and, if_true, ite_true]
  rw [if_neg (Nat.not_lt.mpr hlen)]
  simp [hx1, hx2, hx3]

/-- A run of clean validations whose stored timestamps stay inside one
minute window never trips the limiter: every request is accepted, the
timestamps accumulate in order, and the IP is never blocked. -/
theorem benign_run (x ip : String) (lo : Int)
    (hip : ip ≠ "")
    (hx1 : Security.check_dangerous_patterns x = [])
    (hx2 : Security.check_path_traversal x = [])
    (hx3 : Security.check_injection_attempts x = [])
    (hlen : x.length ≤ Security.max_command_length) :
    ∀ (ts : List Int) (st : Security.SecState),
      st.blocked_ips = [] →
      (∀ u ∈ (Security.alookup st.rate_limit_storage ip).getD [], lo ≤ u ∧ u ≤ lo + 59) →
      (∀ t ∈ ts, lo ≤ t ∧ t ≤ lo + 59) →
      ((Security.alookup st.rate_limit_storage ip).getD []).length + ts.length ≤ 60 →
      (∀ v ∈ (validateRun st x ip ts).1, v.valid = true ∧ v.blocked = false ∧ v.errors = []) ∧
      (Security.alookup (validateRun st x ip ts).2.rate_limit_storage ip).getD [] =
        ((Security.alookup st.rate_limit_storage ip).getD []) ++ ts ∧
      (validateRun st x ip ts).2.blocked_ips = [] := by
  intro ts
  induction ts with
  | nil =>
    intro st hb _ _ _
    refine ⟨by simp [validateRun], by simp [validateRun], by simpa [validateRun] using hb⟩
  | cons t rest ih =>
    intro st hb hbound hwin hct
    have hnb : st.blocked_ips.contains ip = false := by rw [hb]; rfl
    have hlt : ((Security.alookup st.rate_limit_storage ip).getD []).length < 60 := by
      simp only [List.length_cons] at hct; omega
    have hkeep : ∀ u ∈ (Security.alookup st.rate_limit_storage ip).getD [], u > t - 3600 := by
      intro u hu
      have h1 := hbound u hu
      have h2 := hwin t (by simp)
      omega
    have hcr := check_rate_limit_benign st.rate_limit_storage ip t hlt hkeep
    have hallow : (Security.check_rate_limit st.rate_limit_storage ip t).1.allowed = true := by
      rw [hcr]
    have hstep := benign_step st x ip t hip hx1 hx2 hx3 hlen hnb hallow
    have hsto : (Security.alookup
        ({ st with rate_limit_storage :=
            (Security.check_rate_limit st.rate_limit_storage ip t).2 } :
          Security.SecState).rate_limit_storage ip).getD [] =
        ((Security.alookup st.rate_limit_storage ip).getD []) ++ [t] := by
      dsimp only
      rw [hcr]
      dsimp only
      rw [alookup_aset]
      rfl
    have hmain := ih ({ st with rate_limit_storage :=
        (Security.check_rate_limit st.rate_limit_storage ip t).2 })
      hb
      (by
        intro u hu
        rw [hsto] at hu
        rcases List.mem_append.mp hu with h | h
        · exact hbound u h
        · have : u = t := by simpa using h
          subst this
          exact hwin u (by simp))
      (fun a ha => hwin a (List.mem_cons_of_mem _ ha))
      (by
        rw [hsto]
        simp only [List.length_append, List.length_singleton, List.length_cons,
          List.length_nil] at hct ⊢
        omega)
    simp only [validateRun]
    rw [hstep]
    dsimp only
    refine ⟨?_, ?_, hmain.2.2⟩
    · intro v hv
      rcases List.mem_cons.mp hv with h | h
      · subst h
        exact ⟨rfl, rfl, rfl⟩
      · exact hmain.1 v h
    · rw [hmain.2.1, hsto]
      simp [List.append_assoc]

/-- The 61st request inside the minute: the limiter fires with the
per-minute message and the rejected timestamp is NOT recorded. -/
theorem rate_reject_step (st : Security.SecState) (x ip : String) (t : Int)
    (hip : ip ≠ "") (hnb : st.blocked_ips.contains ip = false)
    (hlen60 : ((Security.alookup st.rate_limit_storage ip).getD []).length = 60)
    (hrecent : ∀ u ∈ (Security.alookup st.rate_limit_storage ip).getD [], u > t - 60) :
    Security.validate_input st x (some ip) t =
      ({ valid := false, blocked := false, warnings := [],
         errors := ["Rate limit exceeded: Per-minute limit of 60 requests exceeded"],
         sanitized_input := none },
       { st with rate_limit_storage :=
           (Security.aset st.rate_limit_storage ip
             ((Security.alookup st.rate_limit_storage ip).getD [])) }) := by
  have hp : Security.ipPresent (some ip) = true := by simp [Security.ipPresent, hip]
  have hcr : Security.check_rate_limit st.rate_limit_storage ip t =
      ({ allowed := false, message := "Per-minute limit of 60 requests exceeded" },
       Security.aset st.rate_limit_storage ip
         ((Security.alookup st.rate_limit_storage ip).getD [])) := by
    unfold Security.check_rate_limit
    dsimp only
    have hpr : ((Security.alookup st.rate_limit_storage ip).getD []).filter
        (fun u => u > t - 3600) = (Security.alookup st.rate_limit_storage ip).getD [] :=
      List.filter_eq_self.mpr (fun a ha => by have := hrecent a ha; simp; omega)
    have hre : ((Security.alookup st.rate_limit_storage ip).getD []).filter
        (fun u => u > t - 60) = (Security.alookup st.rate_limit_storage ip).getD [] :=
      List.filter_eq_self.mpr (fun a ha => by simpa using hrecent a ha)
    rw [hpr]
    rw [if_neg (by simp only [Security.max_requests_per_hour]; omega)]
    rw [hre]
    rw [if_pos (by simp only [Security.max_requests_per_minute]; omega)]
  unfold Security.validate_input
  simp only [hp, Option.getD_some, true_and, hnb, Bool.false_eq_true, if_false, ite_false,
    hcr, if_true, ite_true]
  simp

/-- C6: rate-limit boundary.  From an empty security state, 60 clean
validations for one IP, all timestamped inside one minute window, are
every one accepted; the 61st request inside that window is rejected with
exactly the error "Rate limit exceeded: Per-minute limit of 60 requests
exceeded", and the stored timestamp list for that IP afterwards is
exactly the 60 accepted timestamps — the rejected one is not recorded
(the hourly cap of 500 is never the binding one here). -/
theorem claim_C6_rate_limit_boundary (x ip : String) (lo t61 : Int) (ts : List Int)
    (hip : ip ≠ "")
    (hx1 : Security.check_dangerous_patterns x = [])
    (hx2 : Security.check_path_traversal x = [])
    (hx3 : Security.check_injection_attempts x = [])
    (hlen : x.length ≤ Security.max_command_length)
    (hts : ts.length = 60)
    (hwin : ∀ t ∈ ts, lo ≤ t ∧ t ≤ lo + 59)
    (h61a : lo ≤ t61) (h61b : t61 ≤ lo + 59) :
    (∀ v ∈ (validateRun Security.initSec x ip ts).1,
        v.valid = true ∧ v.blocked = false ∧ v.errors = []) ∧
    (Security.validate_input (validateRun Security.initSec x ip ts).2 x (some ip) t61).1.valid
        = false ∧
    (Security.validate_input (validateRun Security.initSec x ip ts).2 x (some ip) t61).1.errors
        = ["Rate limit exceeded: Per-minute limit of 60 requests exceeded"] ∧
    (Security.alookup
        (Security.validate_input (validateRun Security.initSec x ip ts).2 x (some ip)
          t61).2.rate_limit_storage ip).getD [] = ts := by
  have hrun := benign_run x ip lo hip hx1 hx2 hx3 hlen ts Security.initSec rfl
    (by intro u hu; simp [Security.initSec, Security.alookup] at hu)
    hwin
    (by simp [Security.initSec, Security.alookup, hts])
  obtain ⟨hres, hsto, hbl⟩ := hrun
  have hsto' : (Security.alookup
      (validateRun Security.initSec x ip ts).2.rate_limit_storage ip).getD [] = ts := by
    rw [hsto]
    simp [Security.initSec, Security.alookup]
  have hnb : (validateRun Security.initSec x ip ts).2.blocked_ips.contains ip = false := by
    rw [hbl]; rfl
  have hrec : ∀ u ∈ (Security.alookup
      (validateRun Security.initSec x ip ts).2.rate_limit_storage ip).getD [],
      u > t61 - 60 := by
    rw [hsto']
    intro u hu
    have := hwin u hu
    omega
  have hlen60 : ((Security.alookup
      (validateRun Security.initSec x ip ts).2.rate_limit_storage ip).getD []).length = 60 := by
    rw [hsto']; exact hts
  have e := rate_reject_step (validateRun Security.initSec x ip ts).2 x ip t61 hip hnb
    hlen60 hrec
  rw [e]
  refine ⟨hres, rfl, rfl, ?_⟩
  dsimp only
  rw [alookup_aset]
  simpa using hsto'

set_option maxRecDepth 16384 in
theorem claim_C6_rate_limit_boundary_witness :
    ((("1.2.3.4" : String) ≠ "") ∧
     Security.check_dangerous_patterns "ls" = [] ∧
     Security.check_path_traversal "ls" = [] ∧
     Security.check_injection_attempts "ls" = [] ∧
     String.length "ls" ≤ Security.max_command_length ∧
     (List.replicate 60 (0 : Int)).length = 60 ∧
     (∀ t ∈ List.replicate 60 (0 : Int), (0 : Int) ≤ t ∧ t ≤ 0 + 59) ∧
     (0 : Int) ≤ 0 ∧ (0 : Int) ≤ 0 + 59) ∧
    ((∀ v ∈ (validateRun Security.initSec "ls" "1.2.3.4" (List.replicate 60 (0 : Int))).1,
        v.valid = true ∧ v.blocked = false ∧ v.errors = []) ∧
     (Security.validate_input
        (validateRun Security.initSec "ls" "1.2.3.4" (List.replicate 60 (0 : Int))).2
        "ls" (some "1.2.3.4") 0).1.valid = false ∧
     (Security.validate_input
        (validateRun Security.initSec "ls" "1.2.3.4" (List.replicate 60 (0 : Int))).2
        "ls" (some "1.2.3.4") 0).1.errors =
          ["Rate limit exceeded: Per-minute limit of 60 requests exceeded"] ∧
     (Security.alookup
        (Security.validate_input
          (validateRun Security.initSec "ls" "1.2.3.4" (List.replicate 60 (0 : Int))).2
          "ls" (some "1.2.3.4") 0).2.rate_limit_storage "1.2.3.4").getD [] =
        List.replicate 60 (0 : Int)) :=
  ⟨⟨by decide, by decide, by decide, by decide, by decide, by decide, by decide,
    by decide, by decide⟩,
   claim_C6_rate_limit_boundary "ls" "1.2.3.4" 0 0 (List.replicate 60 (0 : Int))
     (by decide) (by decide) (by decide) (by decide) (by decide) (by decide) (by decide)
     (by decide) (by decide)⟩

theorem intercalate_single (x : String) : String.intercalate "\n" [x] = x := by
  simp [String.intercalate, String.intercalate.go]

theorem intercalate_pair (x y : String) : String.intercalate "\n" [x, y] = x ++ "\n" ++ y := by
  simp [String.intercalate, String.intercalate.go, String.append_assoc]

/-- One-file `cat` loop: size gate first, then per-file truncation. -/
theorem catLoop_single (st : Exec.ExecState) (f content : String)
    (hk : Exec.toComps (Exec.safe_path st f) ≠ [])
    (hfind : Exec.fsFind st.fs (Exec.toComps (Exec.safe_path st f)) =
      some (Exec.Entry.file content)) :
    Exec.catLoop st [] [f] =
      (if content.length > Exec.max_file_size then Exec.fails ("File too large: " ++ f)
       else if content.length > Exec.max_output_length then
         Exec.oks (String.mk (content.data.take Exec.max_output_length) ++
           "\n... (output truncated)")
       else Exec.oks content) := by
  simp only [Exec.catLoop]
  rw [if_neg hk, hfind]
  dsimp only
  by_cases h1 : content.length > Exec.max_file_size
  · rw [if_pos h1, if_pos h1]
  · rw [if_neg h1, if_neg h1]
    by_cases h2 : content.length > Exec.max_output_length
    · rw [if_pos h2, if_pos h2]
      simp only [Exec.catLoop, List.nil_append]
      rw [intercalate_single]
    · rw [if_neg h2, if_neg h2]
      simp only [Exec.catLoop, List.nil_append]
      rw [intercalate_single]

/-- Two-file `cat` loop, both files small enough to escape truncation:
the outputs are joined with a newline, with no overall length cap. -/
theorem catLoop_pair (st : Exec.ExecState) (f1 f2 c1 c2 : String)
    (hk1 : Exec.toComps (Exec.safe_path st f1) ≠ [])
    (hf1 : Exec.fsFind st.fs (Exec.toComps (Exec.safe_path st f1)) =
      some (Exec.Entry.file c1))
    (hk2 : Exec.toComps (Exec.safe_path st f2) ≠ [])
    (hf2 : Exec.fsFind st.fs (Exec.toComps (Exec.safe_path st f2)) =
      some (Exec.Entry.file c2))
    (hs1 : c1.length ≤ Exec.max_output_length)
    (hs2 : c2.length ≤ Exec.max_output_length) :
    Exec.catLoop st [] [f1, f2] = Exec.oks (c1 ++ "\n" ++ c2) := by
  have hc1 : ¬ c1.length > Exec.max_file_size := by
    simp only [Exec.max_output_length] at hs1
    simp only [Exec.max_file_size]
    omega
  have hc2 : ¬ c2.length > Exec.max_file_size := by
    simp only [Exec.max_output_length] at hs2
    simp only [Exec.max_file_size]
    omega
  simp only [Exec.catLoop]
  rw [if_neg hk1, hf1]
  dsimp only
  rw [if_neg hc1, if_neg (Nat.not_lt.mpr hs1), if_neg hk2, hf2]
  dsimp only
  rw [if_neg hc2, if_neg (Nat.not_lt.mpr hs2)]
  simp only [List.nil_append, List.singleton_append]
  rw [intercalate_pair]

/-- C7 (amended): single-file `cat` truncation.  For a file resolved and
found in the sandbox: when its content exceeds the max output length but
not the max file size, `cat` succeeds with output equal to exactly the
first max-output-length characters of the content followed by the marker
"\n... (output truncated)" (so the output is max length plus the
23-character marker); when the content fits in the max output length the
content is returned untouched.  (The original claim's "for every file"
and "output never otherwise exceeds the max output length" parts are
refuted separately: an over-max-file-size file fails, and multi-file
`cat` concatenates with no overall cap.) -/
theorem claim_C7_cat_truncation (st : Exec.ExecState) (f content : String)
    (hk : Exec.toComps (Exec.safe_path st f) ≠ [])
    (hfind : Exec.fsFind st.fs (Exec.toComps (Exec.safe_path st f)) =
      some (Exec.Entry.file content)) :
    (content.length > Exec.max_output_length → content.length ≤ Exec.max_file_size →
      Exec.handle_cat st [f] =
        (Exec.oks (String.mk (content.data.take Exec.max_output_length) ++
          "\n... (output truncated)"), st) ∧
      (String.mk (content.data.take Exec.max_output_length) ++
          "\n... (output truncated)").length =
        Exec.max_output_length + 23) ∧
    (content.length ≤ Exec.max_output_length →
      Exec.handle_cat st [f] = (Exec.oks content, st)) := by
  have hargs : ¬ (([f] : List String) = []) := by simp
  constructor
  · intro hbig hfit
    constructor
    · unfold Exec.handle_cat
      rw [if_neg hargs, catLoop_single st f content hk hfind]
      rw [if_neg (Nat.not_lt.mpr hfit), if_pos hbig]
    · have hd : Exec.max_output_length ≤ content.data.length := by
        simp only [String.length] at hbig
        omega
      rw [String.length_append]
      have h23 : ("\n... (output truncated)" : String).length = 23 := rfl
      rw [h23]
      simp only [String.length, List.length_take]
      omega
  · intro hsmall
    unfold Exec.handle_cat
    rw [if_neg hargs, catLoop_single st f content hk hfind]
    have : ¬ content.length > Exec.max_file_size := by
      simp only [Exec.max_output_length] at hsmall
      simp only [Exec.max_file_size]
      omega
    rw [if_neg this, if_neg (Nat.not_lt.mpr hsmall)]

theorem claim_C7_counterexample :
    ((String.mk (List.replicate 10485761 'a')).length > Exec.max_output_length ∧
     Exec.handle_cat stHuge ["huge.txt"] =
       (Exec.fails "File too large: huge.txt", stHuge)) ∧
    ((Exec.handle_cat stTwo ["a.txt", "b.txt"]).1.success = true ∧
     (Exec.handle_cat stTwo ["a.txt", "b.txt"]).1.output.length = 12001 ∧
     Exec.max_output_length < 12001) := by
  have hlenH : (String.mk (List.replicate 10485761 'a')).length = 10485761 := by
    show (List.replicate 10485761 'a').length = 10485761
    exact List.length_replicate 10485761 'a'
  have hA : (String.mk (List.replicate 6000 'a')).length = 6000 := by
    show (List.replicate 6000 'a').length = 6000
    exact List.length_replicate 6000 'a'
  have hB : (String.mk (List.replicate 6000 'b')).length = 6000 := by
    show (List.replicate 6000 'b').length = 6000
    exact List.length_replicate 6000 'b'
  have hkH : Exec.toComps (Exec.safe_path stHuge "huge.txt") ≠ [] := by decide
  have hfH : Exec.fsFind stHuge.fs (Exec.toComps (Exec.safe_path stHuge "huge.txt")) =
      some (Exec.Entry.file (String.mk (List.replicate 10485761 'a'))) := rfl
  have hk1 : Exec.toComps (Exec.safe_path stTwo "a.txt") ≠ [] := by decide
  have hf1 : Exec.fsFind stTwo.fs (Exec.toComps (Exec.safe_path stTwo "a.txt")) =
      some (Exec.Entry.file (String.mk (List.replicate 6000 'a'))) := rfl
  have hk2 : Exec.toComps (Exec.safe_path stTwo "b.txt") ≠ [] := by decide
  have hf2 : Exec.fsFind stTwo.fs (Exec.toComps (Exec.safe_path stTwo "b.txt")) =
      some (Exec.Entry.file (String.mk (List.replicate 6000 'b'))) := rfl
  have hs1 : (String.mk (List.replicate 6000 'a')).length ≤ Exec.max_output_length := by
    rw [hA]; norm_num [Exec.max_output_length]
  have hs2 : (String.mk (List.replicate 6000 'b')).length ≤ Exec.max_output_length := by
    rw [hB]; norm_num [Exec.max_output_length]
  have hpair := catLoop_pair stTwo "a.txt" "b.txt" _ _ hk1 hf1 hk2 hf2 hs1 hs2
  have hcatTwo : Exec.handle_cat stTwo ["a.txt", "b.txt"] =
      (Exec.oks (String.mk (List.replicate 6000 'a') ++ "\n" ++
        String.mk (List.replicate 6000 'b')), stTwo) := by
    unfold Exec.handle_cat
    rw [if_neg (by simp : ¬ ((["a.txt", "b.txt"] : List String) = [])), hpair]
  refine ⟨⟨?_, ?_⟩, ?_, ?_, ?_⟩
  · rw [hlenH]; norm_num [Exec.max_output_length]
  · unfold Exec.handle_cat
    rw [if_neg (by simp : ¬ ((["huge.txt"] : List String) = [])),
      catLoop_single stHuge "huge.txt" _ hkH hfH]
    rw [if_pos (by rw [hlenH]; norm_num [Exec.max_file_size] :
      (String.mk (List.replicate 10485761 'a')).length > Exec.max_file_size)]
    rfl
  · rw [hcatTwo]
    rfl
  · rw [hcatTwo]
    show (String.mk (List.replicate 6000 'a') ++ "\n" ++
      String.mk (List.replicate 6000 'b')).length = 12001
    rw [String.length_append, String.length_append, hA, hB]
    rfl
  · decide

theorem claim_C7_cat_truncation_witness :
    (Exec.toComps (Exec.safe_path stBig "big.txt") ≠ [] ∧
     Exec.fsFind stBig.fs (Exec.toComps (Exec.safe_path stBig "big.txt")) =
       some (Exec.Entry.file (String.mk (List.replicate 10001 'a'))) ∧
     (String.mk (List.replicate 10001 'a')).length > Exec.max_output_length ∧
     (String.mk (List.replicate 10001 'a')).length ≤ Exec.max_file_size) ∧
    (Exec.handle_cat stBig ["big.txt"] =
       (Exec.oks (String.mk ((String.mk (List.replicate 10001 'a')).data.take
           Exec.max_output_length) ++ "\n... (output truncated)"), stBig) ∧
     (String.mk ((String.mk (List.replicate 10001 'a')).data.take Exec.max_output_length) ++
         "\n... (output truncated)").length = Exec.max_output_length + 23) := by
  have hlen : (String.mk (List.replicate 10001 'a')).length = 10001 := by
    show (List.replicate 10001 'a').length = 10001
    exact List.length_replicate 10001 'a'
  have hk : Exec.toComps (Exec.safe_path stBig "big.txt") ≠ [] := by decide
  have hfind : Exec.fsFind stBig.fs (Exec.toComps (Exec.safe_path stBig "big.txt")) =
      some (Exec.Entry.file (String.mk (List.replicate 10001 'a'))) := rfl
  have hgt : (String.mk (List.replicate 10001 'a')).length > Exec.max_output_length := by
    rw [hlen]; norm_num [Exec.max_output_length]
  have hle : (String.mk (List.replicate 10001 'a')).length ≤ Exec.max_file_size := by
    rw [hlen]; norm_num [Exec.max_file_size]
  exact ⟨⟨hk, hfind, hgt, hle⟩,
    (claim_C7_cat_truncation stBig "big.txt" _ hk hfind).1 hgt hle⟩
